import Mathlib

/-! # trainTMVAforAngularReconstruction

A shallow embedding of `src/trainTMVAforAngularReconstruction.cpp` (Eventdisplay) and the
properties of its training-data assembly and training orchestration.

Conventions of the embedding.

* A C++ function that may call `exit` or dereference a null pointer returns an `Outcome`.
* `unsigned int` values are natural numbers, reduced modulo `2 ^ 32` wherever the source
  narrows or subtracts.
* `float` and `double` values are elements of a linearly ordered field (exact arithmetic, no
  rounding, no NaN); `sqrt`, `log10`, `atan2` and `VUtilities::line_point_distance`, which the
  source takes from libraries, are parameters (`MathOps`).
* Text files, ROOT files and the event store are parameters (`Env`).
* Printing to `cout` is not modelled, apart from the usage and version texts of `main`.
-/

namespace Eventdisplay

/-! ## Outcomes -/

/-- How a call of a C++ function of the program ends. -/
inductive Outcome (α : Type) where
  /-- The function returns `a`. -/
  | ret (a : α)
  /-- The function calls `exit( status )`. -/
  | exit (status : Nat)
  /-- The function dereferences a null pointer. -/
  | fault
  deriving Repr, DecidableEq

/-- The value of `EXIT_SUCCESS`. -/
def EXIT_SUCCESS : Nat := 0

/-- The value of `EXIT_FAILURE`. -/
def EXIT_FAILURE : Nat := 1

/-- A text file system: the lines `getline` yields for a path, `none` when the file cannot be
opened. -/
abbrev TextFiles := String → Option (List String)

/-! ## `atoi` -/

/-- The characters `isspace` accepts in the C locale. -/
def isspace (c : Char) : Bool :=
  c == ' ' || c == '\t' || c == '\n' || c.toNat == 11 || c.toNat == 12 || c == '\r'

/-- The decimal digits at the head of a character list, accumulated onto `acc`. -/
def atoiDigits : List Char → Nat → Nat
  | [], acc => acc
  | c :: cs, acc => if c.isDigit then atoiDigits cs (10 * acc + (c.toNat - 48)) else acc

/-- The function `atoi` of the C library: leading white space, an optional sign, decimal digits.
The result is not reduced to the range of `int` (out of that range C leaves it undefined). -/
def atoi (s : String) : Int :=
  match s.toList.dropWhile isspace with
  | '-' :: cs => - (atoiDigits cs 0 : Int)
  | '+' :: cs => (atoiDigits cs 0 : Int)
  | cs => (atoiDigits cs 0 : Int)

/-- The conversion `( unsigned int )` of an `int`. -/
def toUnsigned (z : Int) : Nat := (z % (2 ^ 32 : Int)).toNat

/-! ## `readArrayList` -/

/-- The loop `for( unsigned int i = 0; i < iHyperArrayID.size(); i++ )` of `readArrayList`,
from index `i` on: every position whose hyper-array identifier is `T` is switched on. -/
def markTelescopes (T : Nat) : List Nat → Nat → List Bool → List Bool
  | [], _, iTelList => iTelList
  | id :: ids, i, iTelList =>
    markTelescopes T ids (i + 1)
      (if T = id then (if i < iTelList.length then iTelList.set i true else iTelList)
       else iTelList)

/-- The body of the loop `while( getline( is, iLine ) )` of `readArrayList`. -/
def readArrayLine (iHyperArrayID : List Nat) (iTelList : List Bool) (iLine : String) :
    List Bool :=
  if iLine.length > 0 then markTelescopes (toUnsigned (atoi iLine)) iHyperArrayID 0 iTelList
  else iTelList

/-- The function `readArrayList( i_ntel, iArrayList, iHyperArrayID )`. -/
def readArrayList (fs : TextFiles) (i_ntel : Nat) (iArrayList : String)
    (iHyperArrayID : List Nat) : Outcome (List Bool) :=
  let iTelList := List.replicate i_ntel true
  if iArrayList.length > 0 then
    let iTelList := List.replicate iTelList.length false
    match fs iArrayList with
    | none => .exit EXIT_FAILURE
    | some lines => .ret (lines.foldl (readArrayLine iHyperArrayID) iTelList)
  else
    .ret iTelList

/-- The inclusion list `readArrayList` works with: the identifiers on the non-blank lines of
the file `iArrayList`; empty when no file is named or the file cannot be opened. -/
def inclusionList (fs : TextFiles) (iArrayList : String) : List Nat :=
  if iArrayList.length > 0 then
    match fs iArrayList with
    | none => []
    | some lines => (lines.filter (fun l => decide (l.length > 0))).map
        (fun l => toUnsigned (atoi l))
  else []

/-! ## Data model -/

/-- The library functions the feature derivation calls: `sqrt`, `log10`, `TMath::ATan2` and
`VUtilities::line_point_distance( x1, y1, z1, ze, az, x, y, z )`. -/
structure MathOps (α : Type) where
  /-- The square root. -/
  sqrt : α → α
  /-- The decimal logarithm. -/
  log10 : α → α
  /-- The two-argument arc tangent. -/
  atan2 : α → α → α
  /-- The distance of the point given last from the line through the point given first with
  direction `( ze, az )`. -/
  line_point_distance : α → α → α → α → α → α → α → α → α

/-- One row of the tree `telconfig`, as class `Ctelconfig` presents it. -/
structure Ctelconfig (α : Type) where
  /-- The number of telescopes. -/
  NTel : Nat
  /-- The hyper-array identifier. -/
  TelID_hyperArray : Nat
  /-- The telescope type. -/
  TelType : Nat
  /-- The telescope position, x. -/
  TelX : α
  /-- The telescope position, y. -/
  TelY : α
  /-- The telescope position, z. -/
  TelZ : α
  /-- The field of view. -/
  FOV : α

/-- One entry of the chain `showerpars`, as class `Cshowerpars` presents it (the members the
program reads). Arrays are functions of the index. -/
structure Cshowerpars (α : Type) where
  /-- The run number. -/
  runNumber : Int
  /-- The event number. -/
  eventNumber : Int
  /-- The Monte-Carlo energy. -/
  MCe0 : α
  /-- The Monte-Carlo direction offset, x. -/
  MCxoff : α
  /-- The Monte-Carlo direction offset, y. -/
  MCyoff : α
  /-- The Monte-Carlo core position, x. -/
  MCxcore : α
  /-- The Monte-Carlo core position, y. -/
  MCycore : α
  /-- The Monte-Carlo zenith angle. -/
  MCze : α
  /-- The Monte-Carlo azimuth angle. -/
  MCaz : α
  /-- The local trigger word. -/
  LTrig : Nat
  /-- The number of images, per reconstruction method. -/
  NImages : Nat → Nat
  /-- The reconstructed direction offset x, per reconstruction method. -/
  Xoff : Nat → α
  /-- The reconstructed direction offset y, per reconstruction method. -/
  Yoff : Nat → α
  /-- The reconstructed core position x, per reconstruction method. -/
  Xcore : Nat → α
  /-- The reconstructed core position y, per reconstruction method. -/
  Ycore : Nat → α
  /-- The telescope elevation, per telescope. -/
  TelElevation : Nat → α
  /-- The telescope azimuth, per telescope. -/
  TelAzimuth : Nat → α

/-- One entry of a chain `Tel_<n>/tpars`, as class `Ctpars` presents it (the members the
program reads). -/
structure Ctpars (α : Type) where
  /-- The image centroid, x. -/
  cen_x : α
  /-- The image centroid, y. -/
  cen_y : α
  /-- The sine of the image axis angle. -/
  sinphi : α
  /-- The cosine of the image axis angle. -/
  cosphi : α
  /-- The raw image size. -/
  size : α
  /-- The number of pixels of the image. -/
  ntubes : Nat
  /-- The loss. -/
  loss : α
  /-- The asymmetry. -/
  asymmetry : α
  /-- The image width. -/
  width : α
  /-- The image length. -/
  length : α
  /-- The distance of the image from the camera centre. -/
  dist : α
  /-- The fraction of the image under the ellipse. -/
  fui : α
  /-- The time gradient. -/
  tgrad_x : α
  /-- The mean pedestal variance of the image. -/
  meanPedvar_Image : α
  deriving Inhabited

/-- A row of a training tree: the branches `writeTrainingFile` books, under their branch
names. -/
structure TrainingRecord (α : Type) where
  /-- Branch `runNumber`. -/
  runNumber : Int
  /-- Branch `eventNumber`. -/
  eventNumber : Int
  /-- Branch `tel`: the telescope ordinal, counted from 1. -/
  tel : Nat
  /-- Branch `cen_x`. -/
  cen_x : α
  /-- Branch `cen_y`. -/
  cen_y : α
  /-- Branch `sinphi`. -/
  sinphi : α
  /-- Branch `cosphi`. -/
  cosphi : α
  /-- Branch `size`: the decimal logarithm of the raw size. -/
  size : α
  /-- Branch `ntubes`. -/
  ntubes : α
  /-- Branch `loss`. -/
  loss : α
  /-- Branch `asym`. -/
  asym : α
  /-- Branch `width`. -/
  width : α
  /-- Branch `length`. -/
  length : α
  /-- Branch `wol`: width over length. -/
  wol : α
  /-- Branch `dist`. -/
  dist : α
  /-- Branch `fui`. -/
  fui : α
  /-- Branch `tgrad_x`. -/
  tgrad_x : α
  /-- Branch `meanPedvar_Image`. -/
  meanPedvar_Image : α
  /-- Branch `MCe0`. -/
  MCe0 : α
  /-- Branch `MCxoff`. -/
  MCxoff : α
  /-- Branch `MCyoff`. -/
  MCyoff : α
  /-- Branch `MCxcore`. -/
  MCxcore : α
  /-- Branch `MCycore`. -/
  MCycore : α
  /-- Branch `MCrcore`. -/
  MCrcore : α
  /-- Branch `Xcore`. -/
  Xcore : α
  /-- Branch `Ycore`. -/
  Ycore : α
  /-- Branch `Rcore`. -/
  Rcore : α
  /-- Branch `Xoff`. -/
  Xoff : α
  /-- Branch `Yoff`. -/
  Yoff : α
  /-- Branch `LTrig`. -/
  LTrig : α
  /-- Branch `NImages`. -/
  NImages : α
  /-- Branch `EHeight`. -/
  EHeight : α
  /-- Branch `MCaz`. -/
  MCaz : α
  /-- Branch `MCze`. -/
  MCze : α
  /-- Branch `Ze`. -/
  Ze : α
  /-- Branch `Az`. -/
  Az : α
  /-- Branch `disp`. -/
  disp : α
  /-- Branch `dispError`. -/
  dispError : α
  /-- Branch `cross`. -/
  cross : α
  /-- Branch `dispPhi`. -/
  dispPhi : α
  /-- Branch `dispEnergy`. -/
  dispEnergy : α
  /-- Branch `dispCore`. -/
  dispCore : α
  deriving Inhabited

/-- A training tree: its name, its title and its rows, in the order they were filled. -/
structure TTree (α : Type) where
  /-- The name of the tree. -/
  name : String
  /-- The title of the tree. -/
  title : String
  /-- The rows of the tree. -/
  entries : List (TrainingRecord α)
  deriving Inhabited

/-- The number `GetEntries()` returns. -/
def TTree.GetEntries {α : Type} (t : TTree α) : Nat := t.entries.length

/-- The tree after one `Fill()` with the row `r`. -/
def TTree.Fill {α : Type} (t : TTree α) (r : TrainingRecord α) : TTree α :=
  { t with entries := t.entries ++ [r] }

/-! ## The map `fMapOfTrainingTree` -/

/-- The global `map< ULong64_t, TTree* > fMapOfTrainingTree`: the pairs of telescope type and
tree, in ascending order of the telescope type. The program stores no null pointer in it. -/
abbrev TreeMap (α : Type) := List (Nat × TTree α)

/-- The tree `fMapOfTrainingTree.find( k )` points at, `none` for `end()`. -/
def mapFind {α : Type} : TreeMap α → Nat → Option (TTree α)
  | [], _ => none
  | (k', t) :: m, k => if k' = k then some t else mapFind m k

/-- The map after `fMapOfTrainingTree[k] = t`. -/
def mapInsert {α : Type} (k : Nat) (t : TTree α) : TreeMap α → TreeMap α
  | [] => [(k, t)]
  | (k', t') :: m =>
    if k < k' then (k, t) :: (k', t') :: m
    else if k = k' then (k, t) :: m
    else (k', t') :: mapInsert k t m

/-- The map after `fMapOfTrainingTree[k]->Fill()` with the row `r`, for a key `k` of the
map. -/
def mapFill {α : Type} (k : Nat) (r : TrainingRecord α) : TreeMap α → TreeMap α
  | [] => []
  | (k', t) :: m => if k' = k then (k', t.Fill r) :: m else (k', t) :: mapFill k r m

/-! ## Feature derivation -/

section Features

variable {α : Type} [LinearOrderedField α]

/-- The statement `if( length > 0. ) wol = width / length; else wol = 0.;` of
`writeTrainingFile`, with the division `div`. -/
def wolWith (div : α → α → α) (width length : α) : α :=
  if length > 0 then div width length else 0

/-- The value `wol` of `writeTrainingFile`. -/
def wol (width length : α) : α := wolWith (fun a b => a / b) width length

/-- The value `disp` of `writeTrainingFile`. -/
def disp (ops : MathOps α) (cen_x cen_y MCxoff MCyoff : α) : α :=
  ops.sqrt ((cen_y + MCyoff) * (cen_y + MCyoff) + (cen_x - MCxoff) * (cen_x - MCxoff))

/-- The value `cross` of `writeTrainingFile`. -/
def cross (ops : MathOps α) (cen_x cen_y Xoff Yoff : α) : α :=
  ops.sqrt ((cen_y + Yoff) * (cen_y + Yoff) + (cen_x - Xoff) * (cen_x - Xoff))

/-- The value `dispPhi` of `writeTrainingFile`. -/
def dispPhi (ops : MathOps α) (cen_x cen_y sinphi cosphi MCxoff MCyoff : α) : α :=
  ops.atan2 sinphi cosphi - ops.atan2 (cen_y + MCyoff) (cen_x - MCxoff)

/-- The `if`/`else` of `writeTrainingFile` that assigns `dispError`, for the candidate points
`( x1, y1 )` and `( x2, y2 )`. -/
def dispErrorOf (ops : MathOps α) (x1 y1 x2 y2 MCxoff MCyoff : α) : α :=
  if ops.sqrt ((x1 - MCxoff) * (x1 - MCxoff) + (y1 + MCyoff) * (y1 + MCyoff))
      < ops.sqrt ((x2 - MCxoff) * (x2 - MCxoff) + (y2 + MCyoff) * (y2 + MCyoff)) then
    ops.sqrt ((x1 - MCxoff) * (x1 - MCxoff) + (y1 + MCyoff) * (y1 + MCyoff))
  else
    ops.sqrt ((x2 - MCxoff) * (x2 - MCxoff) + (y2 + MCyoff) * (y2 + MCyoff))

/-- The value `dispError` of `writeTrainingFile`. -/
def dispError (ops : MathOps α) (cen_x cen_y sinphi cosphi MCxoff MCyoff : α) : α :=
  let disp := disp ops cen_x cen_y MCxoff MCyoff
  let x1 := cen_x - disp * cosphi
  let x2 := cen_x + disp * cosphi
  let y1 := cen_y - disp * sinphi
  let y2 := cen_y + disp * sinphi
  dispErrorOf ops x1 y1 x2 y2 MCxoff MCyoff

/-- The distance of the points `( px, py )` and `( qx, qy )`. -/
def distance (ops : MathOps α) (px py qx qy : α) : α :=
  ops.sqrt ((px - qx) * (px - qx) + (py - qy) * (py - qy))

/-- The row `writeTrainingFile` fills for the event `sp` and the image `tp` of the telescope
with index `i`: the assignments between the size cut and `Fill()`. -/
def trainingRecord (ops : MathOps α) (iRecID : Nat) (fTelX fTelY fTelZ : List α)
    (sp : Cshowerpars α) (tp : Ctpars α) (i : Nat) : TrainingRecord α :=
  let ze : α := 90 - sp.TelElevation i
  let az : α := sp.TelAzimuth i
  let Xcore := sp.Xcore iRecID
  let Ycore := sp.Ycore iRecID
  let Rcore := ops.line_point_distance Ycore (-1 * Xcore) 0 ze az
    (fTelY.getD i 0) (-1 * fTelX.getD i 0) (fTelZ.getD i 0)
  { runNumber := sp.runNumber
    eventNumber := sp.eventNumber
    tel := (i + 1) % 2 ^ 32
    cen_x := tp.cen_x
    cen_y := tp.cen_y
    sinphi := tp.sinphi
    cosphi := tp.cosphi
    size := ops.log10 tp.size
    ntubes := (tp.ntubes : α)
    loss := tp.loss
    asym := tp.asymmetry
    width := tp.width
    length := tp.length
    wol := wol tp.width tp.length
    dist := tp.dist
    fui := tp.fui
    tgrad_x := tp.tgrad_x
    meanPedvar_Image := tp.meanPedvar_Image
    Ze := ze
    Az := az
    MCe0 := sp.MCe0
    MCxoff := sp.MCxoff
    MCyoff := sp.MCyoff
    MCxcore := sp.MCxcore
    MCycore := sp.MCycore
    Xoff := sp.Xoff iRecID
    Yoff := sp.Yoff iRecID
    Xcore := Xcore
    Ycore := Ycore
    LTrig := (sp.LTrig : α)
    NImages := (sp.NImages iRecID : α)
    MCze := sp.MCze
    MCaz := sp.MCaz
    Rcore := Rcore
    MCrcore := ops.line_point_distance sp.MCycore (-1 * sp.MCxcore) 0 sp.MCze sp.MCaz
      (fTelY.getD i 0) (-1 * fTelX.getD i 0) (fTelZ.getD i 0)
    disp := disp ops tp.cen_x tp.cen_y sp.MCxoff sp.MCyoff
    cross := cross ops tp.cen_x tp.cen_y (sp.Xoff iRecID) (sp.Yoff iRecID)
    dispPhi := dispPhi ops tp.cen_x tp.cen_y tp.sinphi tp.cosphi sp.MCxoff sp.MCyoff
    dispError := dispError ops tp.cen_x tp.cen_y tp.sinphi tp.cosphi sp.MCxoff sp.MCyoff
    dispEnergy := ops.log10 sp.MCe0 / ops.log10 tp.size
    dispCore := Rcore
    EHeight := -1 }

end Features

/-! ## The environment -/

/-- What the program finds outside itself. -/
structure Env (α : Type) where
  /-- The text files (input file lists, telescope lists). -/
  textFiles : TextFiles
  /-- The rows of the tree `telconfig` of an event file. -/
  telconfig : String → List (Ctelconfig α)
  /-- The entries of the chain `showerpars` over a list of event files. -/
  showerpars : List String → List (Cshowerpars α)
  /-- The entry with a given ordinal of the chain `Tel_<n>/tpars` over a list of event files:
  file list, `n`, ordinal. The chains are aligned with `showerpars`. -/
  tpars : List String → Nat → Nat → Ctpars α
  /-- The trees of a ROOT file opened for reading, `none` when the file is a zombie. -/
  rootFiles : String → Option (List (TTree α))
  /-- Whether `TFile( name, "RECREATE" )` gives a file that is no zombie. -/
  creatable : String → Bool
  /-- The function `atof` of the C library, followed by the conversion to `float`. -/
  atof : String → ℚ
  /-- Whether the program was compiled with `ROOT6` defined. -/
  ROOT6 : Bool

/-! ## `fillInputFile_fromList` -/

/-- The function `fillInputFile_fromList( iList )`. -/
def fillInputFile_fromList (fs : TextFiles) (iList : String) : Outcome (List String) :=
  match fs iList with
  | none => .exit EXIT_FAILURE
  | some lines => .ret (lines.filter (fun iLine => decide (iLine.length > 0)))

/-! ## `writeTrainingFile` -/

section Assembly

variable {α : Type} [LinearOrderedField α]

/-- The members of a `Ctelconfig` object before the first `GetEntry`. -/
def Ctelconfig.init : Ctelconfig α :=
  { NTel := 0, TelID_hyperArray := 0, TelType := 0, TelX := 0, TelY := 0, TelZ := 0, FOV := 0 }

/-- The members of `i_tel` after `i_tel.GetEntry( i )`: row `i`; beyond the last row `GetEntry`
reads nothing and the members keep the row read before, which in `writeTrainingFile` is the
last row (every loop runs through the rows in ascending order). -/
def telEntry (rows : List (Ctelconfig α)) (i : Nat) : Ctelconfig α :=
  (rows[i]?).getD ((rows.getLast?).getD Ctelconfig.init)

/-- The tree `writeTrainingFile` creates for a telescope type (its branches are the fields of
`TrainingRecord`). -/
def newTrainingTree (TelType : Nat) : TTree α :=
  { name := "dispTree_" ++ toString TelType
    title := "training tree for modified disp method (telescope type " ++ toString TelType ++ ")"
    entries := [] }

/-- The body of the loop of `writeTrainingFile` that defines the training trees, for the
telescope with index `i`. -/
def bookTree (rows : List (Ctelconfig α)) (iTelType : Nat) (fUseTelescope : List Bool)
    (i : Nat) (fMap : TreeMap α) : TreeMap α :=
  let i_tel := telEntry rows i
  if iTelType ≠ 0 ∧ i_tel.TelType ≠ iTelType then fMap
  else if i < fUseTelescope.length ∧ fUseTelescope.getD i true = false then fMap
  else if (mapFind fMap i_tel.TelType).isNone then
    mapInsert i_tel.TelType (newTrainingTree i_tel.TelType) fMap
  else fMap

/-- The loop of `writeTrainingFile` that defines the training trees: `k` telescopes from
index `i` on. -/
def bookTrees (rows : List (Ctelconfig α)) (iTelType : Nat) (fUseTelescope : List Bool) :
    Nat → Nat → TreeMap α → TreeMap α
  | 0, _, fMap => fMap
  | k + 1, i, fMap =>
    bookTrees rows iTelType fUseTelescope k (i + 1) (bookTree rows iTelType fUseTelescope i fMap)

/-- The loop of `writeTrainingFile` that fills `i_tpars`, from index `i` on: a reader of the
chain `Tel_<i+1>/tpars` for a telescope of the requested type, the null pointer otherwise. -/
def openReaders (tpars : Nat → Nat → Ctpars α) (iTelType : Nat) :
    List Nat → Nat → List (Option (Nat → Ctpars α))
  | [], _ => []
  | t :: fTelType, i =>
    (if iTelType = 0 ∨ iTelType = t then some (tpars (i + 1)) else none)
      :: openReaders tpars iTelType fTelType (i + 1)

/-- The body of the loop over all telescopes of `writeTrainingFile`, for the event `sp` with
ordinal `n` and the telescope with index `i`, whose entry of `i_tpars` is `reader`. -/
def telescopeBody (ops : MathOps α) (iRecID : Nat) (fTelX fTelY fTelZ : List α)
    (fTelType : List Nat) (sp : Cshowerpars α) (n i : Nat)
    (reader : Option (Nat → Ctpars α)) (fMap : TreeMap α) : Outcome (TreeMap α) :=
  match reader with
  | none => .fault
  | some i_tpars =>
    let tp := i_tpars n
    if tp.size ≤ 0 then .ret fMap
    else
      let r := trainingRecord ops iRecID fTelX fTelY fTelZ sp tp i
      if (mapFind fMap (fTelType.getD i 0)).isSome then
        .ret (mapFill (fTelType.getD i 0) r fMap)
      else .ret fMap

/-- The loop over all telescopes of `writeTrainingFile`, for the event `sp` with ordinal `n`:
the entries `readers` of `i_tpars` from index `i` on. -/
def telescopeLoop (ops : MathOps α) (iRecID : Nat) (fTelX fTelY fTelZ : List α)
    (fTelType : List Nat) (sp : Cshowerpars α) (n : Nat) :
    List (Option (Nat → Ctpars α)) → Nat → TreeMap α → Outcome (TreeMap α)
  | [], _, fMap => .ret fMap
  | reader :: readers, i, fMap =>
    match telescopeBody ops iRecID fTelX fTelY fTelZ fTelType sp n i reader fMap with
    | .ret fMap1 => telescopeLoop ops iRecID fTelX fTelY fTelZ fTelType sp n readers (i + 1) fMap1
    | .exit status => .exit status
    | .fault => .fault

/-- The loop over all events of `writeTrainingFile`: the entries of `showerpars` from ordinal
`n` on. The bound `int nentries` is the number of entries (no narrowing to `int`). -/
def eventLoop (ops : MathOps α) (iRecID : Nat) (fTelX fTelY fTelZ : List α)
    (fTelType : List Nat) (i_tpars : List (Option (Nat → Ctpars α))) :
    List (Cshowerpars α) → Nat → TreeMap α → Outcome (TreeMap α)
  | [], _, fMap => .ret fMap
  | sp :: events, n, fMap =>
    match telescopeLoop ops iRecID fTelX fTelY fTelZ fTelType sp n i_tpars 0 fMap with
    | .ret fMap1 => eventLoop ops iRecID fTelX fTelY fTelZ fTelType i_tpars events (n + 1) fMap1
    | .exit status => .exit status
    | .fault => .fault

/-- The function `writeTrainingFile( iInputFile, iTelType, iRecID, iArrayList )`. It returns
its `bool` and the value it leaves in `fMapOfTrainingTree`, whose value at the call is `fMap`.
The counter `f_ntelType` and the vector `iFOV_tel`, which are only printed, are left out. -/
def writeTrainingFile (ops : MathOps α) (env : Env α) (fMap : TreeMap α) (iInputFile : String)
    (iTelType iRecID : Nat) (iArrayList : String) : Outcome (Bool × TreeMap α) :=
  match fillInputFile_fromList env.textFiles iInputFile with
  | .exit status => .exit status
  | .fault => .fault
  | .ret iInputFileList =>
    if iInputFileList.length = 0 then .ret (false, fMap)
    else
      let rows := env.telconfig (iInputFileList.getD 0 "")
      let i_ntel := (telEntry rows 0).NTel
      let iHyperArrayID := rows.map (fun row => row.TelID_hyperArray)
      match readArrayList env.textFiles i_ntel iArrayList iHyperArrayID with
      | .exit status => .exit status
      | .fault => .fault
      | .ret fUseTelescope =>
        if fUseTelescope.length ≠ i_ntel then .exit EXIT_FAILURE
        else
          let fTelX := (List.range i_ntel).map (fun i => (telEntry rows i).TelX)
          let fTelY := (List.range i_ntel).map (fun i => (telEntry rows i).TelY)
          let fTelZ := (List.range i_ntel).map (fun i => (telEntry rows i).TelZ)
          let fTelType := (List.range i_ntel).map (fun i => (telEntry rows i).TelType)
          let trees := bookTrees rows iTelType fUseTelescope i_ntel 0 []
          let i_tpars := openReaders (env.tpars iInputFileList) iTelType fTelType 0
          match eventLoop ops iRecID fTelX fTelY fTelZ fTelType i_tpars
              (env.showerpars iInputFileList) 0 trees with
          | .ret filled => .ret (true, filled)
          | .exit status => .exit status
          | .fault => .fault

end Assembly

/-! ## `readTrainingFile` -/

/-- The function `readTrainingFile( iTargetBDT, iTelType, iDataDirectory )`: its `bool` and
the value it leaves in `fMapOfTrainingTree`. -/
def readTrainingFile {α : Type} (env : Env α) (iTargetBDT : String) (iTelType : Nat)
    (iDataDirectory : String) : Bool × TreeMap α :=
  let iFileName := iDataDirectory ++ "/" ++ iTargetBDT
    ++ (if iTelType ≠ 0 then "_" ++ toString iTelType else "") ++ ".root"
  match env.rootFiles iFileName with
  | none => (false, [])
  | some trees =>
    match trees.find? (fun t => t.name == "dispTree_" ++ toString iTelType) with
    | some t => (true, mapInsert iTelType t [])
    | none => (true, [])

/-! ## Effects -/

/-- What the program does to the outside, in the order it does it. -/
inductive Effect (α : Type) where
  /-- The version text is printed. -/
  | printVersion
  /-- The usage text is printed. -/
  | printUsage
  /-- The call `TFile( name, "RECREATE" )`. -/
  | createFile (name : String)
  /-- The call `writeTrainingFile( ... )` returned or ended the run. -/
  | assembleDataset (iInputFile : String)
  /-- The call `readTrainingFile( ... )` returned. -/
  | reloadDataset (iDataDirectory : String)
  /-- The call `Write()` of a training tree, into the file `file`. -/
  | writeTree (file : String) (tree : TTree α)
  /-- The call `gSystem->mkdir( dir )`. -/
  | mkdir (dir : String)
  /-- The construction of the `TMVA::Factory`. -/
  | newFactory (jobName options : String)
  /-- The call `AddVariable( expression, 'F' )`. -/
  | addVariable (expression : String)
  /-- The call `AddSpectator( expression, 'F' )`. -/
  | addSpectator (expression : String)
  /-- The call `AddTarget( expression, 'F' )`, or `AddTarget( expression, 'F', text, min, max )`
  when `range` is `some ( text, min, max )`. -/
  | addTarget (expression : String) (range : Option (String × ℚ × ℚ))
  /-- The call `AddRegressionTree( tree, 1. )`. -/
  | addRegressionTree (tree : TTree α)
  /-- The call `PrepareTrainingAndTestTree( cut, options )`. -/
  | prepareTrainingAndTestTree (cut options : String)
  /-- The call `BookMethod( ..., TMVA::Types::kBDT, title, options )`. -/
  | bookMethod (title options : String)
  /-- The call `TrainAllMethods()`. -/
  | trainAllMethods
  /-- The call `TestAllMethods()`. -/
  | testAllMethods
  /-- The call `EvaluateAllMethods()`. -/
  | evaluateAllMethods
  /-- The call `factory->Delete()`. -/
  | deleteFactory
  /-- The call `iO.Close()`. -/
  | closeFile (name : String)

/-- A run of a part of the program: its effects and how it ends. -/
structure Run (α β : Type) where
  /-- The effects, in order. -/
  trace : List (Effect α)
  /-- How the run ends. -/
  outcome : Outcome β

/-! ## `trainTMVA` -/

/-- The conversion of a non-negative `float` or `double` to `unsigned int`: truncation, modulo
`2 ^ 32`. -/
def truncToUnsigned (x : ℚ) : Nat := toUnsigned ⌊x⌋

/-- The value `ntrain = floor( nentries * iTrainTest )` of `trainTMVA` before the damping. The
single-precision product is taken exactly. -/
def ntrainOf (nentries : Nat) (iTrainTest : ℚ) : Nat :=
  truncToUnsigned ((nentries : ℚ) * iTrainTest)

/-- The value `ntest = nentries - ntrain` of `trainTMVA` before the damping, in `unsigned int`
arithmetic. -/
def ntestOf (nentries ntrain : Nat) : Nat := (nentries + 2 ^ 32 - ntrain % 2 ^ 32) % 2 ^ 32

/-- The statements `ntrain *= 0.8;` and `ntest *= 0.8;` of `trainTMVA`: the product with 0.8,
taken exactly, and truncated. -/
def damp (n : Nat) : Nat := truncToUnsigned ((n : ℚ) * (8 / 10))

/-- The string `train_and_test_conditions` of `trainTMVA`, for the damped counts. -/
def trainAndTestConditions (root6 : Bool) (ntrain ntest : Nat) : String :=
  "nTrain_Regression=" ++ toString ntrain ++ ":" ++ "nTest_Regression=" ++ toString ntest ++ ":"
    ++ "SplitMode=Random" ++ ":" ++ "NormMode=NumEvents" ++ ":"
    ++ (if root6 then "V=True" ++ ":" ++ "VerboseLevel=Info" ++ ":" ++ "ScaleWithPreselEff=True"
        else "!V")

/-- The calls `AddVariable` of `trainTMVA`, in order. -/
def addVariables (α : Type) (iTelType : Nat) : List (Effect α) :=
  [.addVariable "width", .addVariable "length", .addVariable "wol", .addVariable "size"]
    ++ (if iTelType ≠ 201511619 then [.addVariable "tgrad_x*tgrad_x"] else [])
    ++ [.addVariable "asym", .addVariable "loss", .addVariable "dist", .addVariable "fui"]

/-- The calls `AddSpectator` of `trainTMVA`, in order. -/
def addSpectators (α : Type) : List (Effect α) :=
  [.addSpectator "MCe0", .addSpectator "MCxoff", .addSpectator "MCyoff",
   .addSpectator "MCxcore", .addSpectator "MCycore", .addSpectator "MCrcore",
   .addSpectator "NImages"]

/-- The chain of `if`/`else if` of `trainTMVA` that registers the target: the call it makes,
`none` when it reaches `exit( EXIT_FAILURE )`. -/
def addTargetOf (α : Type) (iTargetBDT : String) : Option (Effect α) :=
  if iTargetBDT = "BDTDispEnergy" then some (.addTarget "dispEnergy" none)
  else if iTargetBDT = "BDTDisp" then some (.addTarget "disp" none)
  else if iTargetBDT = "BDTDispError" then some (.addTarget "dispError" (some ("dispError", 0, 10)))
  else if iTargetBDT = "BDTDispCore" then some (.addTarget "dispCore" (some ("m", 0, 100000)))
  else none

/-- The function `trainTMVA( iOutputDir, iTrainTest, iTelType, iDataTree, iTargetBDT,
iTMVAOptions, iQualityCut )`. -/
def trainTMVA {α : Type} (env : Env α) (iOutputDir : String) (iTrainTest : ℚ) (iTelType : Nat)
    (iDataTree : Option (TTree α)) (iTargetBDT iTMVAOptions iQualityCut : String) :
    Run α Bool :=
  match iDataTree with
  | none => ⟨[], .ret false⟩
  | some tree =>
    let nentries := tree.GetEntries % 2 ^ 32
    let ntrain := ntrainOf nentries iTrainTest
    let ntest := ntestOf nentries ntrain
    if ntrain ≤ 100 then ⟨[], .exit EXIT_FAILURE⟩
    else if ntest ≤ 100 then ⟨[], .exit EXIT_FAILURE⟩
    else
      let ntrain := damp ntrain
      let ntest := damp ntest
      let train_and_test_conditions := trainAndTestConditions env.ROOT6 ntrain ntest
      let iFileName := iOutputDir ++ "/" ++ iTargetBDT ++ "_" ++ toString iTelType ++ ".tmva.root"
      if env.creatable iFileName = false then ⟨[.createFile iFileName], .ret false⟩
      else
        let setup : List (Effect α) :=
          [.createFile iFileName, .mkdir iOutputDir,
           .newFactory iTargetBDT
             (if env.ROOT6 then
                "V:!DrawProgressBar:!Color:!Silent:AnalysisType=Regression:VerboseLevel=Debug:Correlations=True"
              else "V:!DrawProgressBar:!Color:!Silent")]
          ++ addVariables α iTelType ++ addSpectators α
        match addTargetOf α iTargetBDT with
        | none => ⟨setup, .exit EXIT_FAILURE⟩
        | some target =>
          ⟨setup ++ [target, .addRegressionTree tree,
              .prepareTrainingAndTestTree iQualityCut train_and_test_conditions,
              .bookMethod ("BDT_" ++ toString iTelType) iTMVAOptions,
              .trainAllMethods, .testAllMethods, .evaluateAllMethods, .deleteFactory],
            .ret true⟩

/-! ## `main` -/

/-- The conversion of an `int` to `ULong64_t`. -/
def toULong64 (z : Int) : Nat := (z % (2 ^ 64 : Int)).toNat

/-- The loop of `main` that trains one method per telescope type. -/
def trainAll {α : Type} (env : Env α) (fOutputDir : String) (fTrainTest : ℚ)
    (iTargetBDT iTMVAOptions iQualityCut : String) : TreeMap α → Run α Unit
  | [] => ⟨[], .ret ()⟩
  | (iTelType, tree) :: rest =>
    let r := trainTMVA env fOutputDir fTrainTest iTelType (some tree) iTargetBDT iTMVAOptions
      iQualityCut
    match r.outcome with
    | .ret _ =>
      let r1 := trainAll env fOutputDir fTrainTest iTargetBDT iTMVAOptions iQualityCut rest
      ⟨r.trace ++ r1.trace, r1.outcome⟩
    | .exit status => ⟨r.trace, .exit status⟩
    | .fault => ⟨r.trace, .fault⟩

/-- The part of `main` after the training trees are in `fMapOfTrainingTree`: the trees are
written to the output file, one method is trained per telescope type, the file is closed. -/
def writeAndTrain {α : Type} (env : Env α) (iFileName fOutputDir : String) (fTrainTest : ℚ)
    (iTargetBDT iTMVAOptions iQualityCut : String) (fMap : TreeMap α) : Run α Nat :=
  let written : List (Effect α) := fMap.map (fun kt => .writeTree iFileName kt.2)
  let r := trainAll env fOutputDir fTrainTest iTargetBDT iTMVAOptions iQualityCut fMap
  match r.outcome with
  | .ret _ => ⟨written ++ r.trace ++ [.closeFile iFileName], .ret 0⟩
  | .exit status => ⟨written ++ r.trace, .exit status⟩
  | .fault => ⟨written ++ r.trace, .fault⟩

/-- The part of `main` after the command line is read: the check of the train fraction, the
output file, the assembly or the reload of the training trees, and `writeAndTrain`. -/
def mainAfterArguments {α : Type} [LinearOrderedField α] (ops : MathOps α) (env : Env α)
    (fInputFile fOutputDir : String) (fTrainTest : ℚ) (iRecID iTelType : Nat)
    (iTargetBDT iTMVAOptions iLayoutFile iDataDirectory iQualityCut : String) : Run α Nat :=
  if fTrainTest ≤ 0 ∨ fTrainTest ≥ 1 then ⟨[], .exit EXIT_FAILURE⟩
  else
    let iFileName := fOutputDir ++ "/" ++ iTargetBDT
      ++ (if iTelType ≠ 0 then "_" ++ toString iTelType else "") ++ ".root"
    if env.creatable iFileName = false then ⟨[.createFile iFileName], .exit EXIT_FAILURE⟩
    else if iDataDirectory.length = 0 then
      match writeTrainingFile ops env [] fInputFile iTelType iRecID iLayoutFile with
      | .exit status => ⟨[.createFile iFileName, .assembleDataset fInputFile], .exit status⟩
      | .fault => ⟨[.createFile iFileName, .assembleDataset fInputFile], .fault⟩
      | .ret (false, _) =>
        ⟨[.createFile iFileName, .assembleDataset fInputFile], .exit EXIT_FAILURE⟩
      | .ret (true, fMap) =>
        let r := writeAndTrain env iFileName fOutputDir fTrainTest iTargetBDT iTMVAOptions
          iQualityCut fMap
        ⟨[.createFile iFileName, .assembleDataset fInputFile] ++ r.trace, r.outcome⟩
    else
      match readTrainingFile env iTargetBDT iTelType iDataDirectory with
      | (false, _) =>
        ⟨[.createFile iFileName, .reloadDataset iDataDirectory], .exit EXIT_FAILURE⟩
      | (true, fMap) =>
        let r := writeAndTrain env iFileName fOutputDir fTrainTest iTargetBDT iTMVAOptions
          iQualityCut fMap
        ⟨[.createFile iFileName, .reloadDataset iDataDirectory] ++ r.trace, r.outcome⟩

/-- The function `main( argc, argv )`, with `argv` the list of the `argc` arguments, the program
name first. -/
def main {α : Type} [LinearOrderedField α] (ops : MathOps α) (env : Env α)
    (argv : List String) : Run α Nat :=
  let argc := argv.length
  if argc = 2 ∧ (argv.getD 1 "" = "-v" ∨ argv.getD 1 "" = "--version") then
    ⟨[.printVersion], .exit EXIT_SUCCESS⟩
  else if argc < 6 then ⟨[.printUsage], .exit EXIT_SUCCESS⟩
  else
    let fInputFile := argv.getD 1 ""
    let fOutputDir := argv.getD 2 ""
    let fTrainTest := env.atof (argv.getD 3 "")
    let iRecID := toUnsigned (atoi (argv.getD 4 ""))
    let iTelType := toULong64 (atoi (argv.getD 5 ""))
    let iTargetBDT := if argc ≥ 7 then argv.getD 6 "" else "BDTDisp"
    let iTMVAOptions :=
      if argc ≥ 8 then argv.getD 7 ""
      else "VarTransform=N:NTrees=200:BoostType=AdaBoost:MaxDepth=8"
    let iLayoutFile := if argc ≥ 9 then argv.getD 8 "" else ""
    let iDataDirectory := if argc ≥ 10 then argv.getD 9 "" else ""
    let iQualityCut :=
      if argc ≥ 11 then argv.getD 10 ""
      else "size>1.&&ntubes>4.&&width>0.&&width<2.&&length>0.&&length<10.&&tgrad_x<100.*100.&&loss<0.20"
    mainAfterArguments ops env fInputFile fOutputDir fTrainTest iRecID iTelType iTargetBDT
      iTMVAOptions iLayoutFile iDataDirectory iQualityCut

/-! ## Sample inputs -/

/-- A text file system with one file, `array.list`, which has no line. -/
def emptyListFiles : TextFiles := fun path => if path = "array.list" then some [] else none

/-- A text file system with one file, `array.list`, with the lines `7`, an empty line, ` 12abc`
and `-1`. -/
def sampleListFiles : TextFiles :=
  fun path => if path = "array.list" then some ["7", "", " 12abc", "-1"] else none

/-- A training tree over the rationals with `n` rows, all of them the default row. -/
def sampleTree (n : Nat) : TTree ℚ :=
  { name := "dispTree_1", title := "", entries := List.replicate n default }

/-- An environment without files in which every output file can be created. -/
def sampleEnv : Env ℚ :=
  { textFiles := fun _ => none
    telconfig := fun _ => []
    showerpars := fun _ => []
    tpars := fun _ _ _ => default
    rootFiles := fun _ => none
    creatable := fun _ => true
    atof := fun _ => 1 / 2
    ROOT6 := true }

/-- Library functions over the rationals, for the evaluation of sample runs: the values are of
no concern there. -/
def sampleOps : MathOps ℚ :=
  { sqrt := fun x => x
    log10 := fun x => x
    atan2 := fun y _ => y
    line_point_distance := fun _ _ _ _ _ _ _ _ => 0 }

/-- An event of the chain `showerpars`. -/
def sampleEvent : Cshowerpars ℚ :=
  { runNumber := 1, eventNumber := 1, MCe0 := 1, MCxoff := 0, MCyoff := 0, MCxcore := 0,
    MCycore := 0, MCze := 0, MCaz := 0, LTrig := 0, NImages := fun _ => 2,
    Xoff := fun _ => 0, Yoff := fun _ => 0, Xcore := fun _ => 0, Ycore := fun _ => 0,
    TelElevation := fun _ => 70, TelAzimuth := fun _ => 0 }

/-- An image of raw size 10. -/
def sampleImage : Ctpars ℚ :=
  { cen_x := 1, cen_y := 1, sinphi := 0, cosphi := 1, size := 10, ntubes := 5, loss := 0,
    asymmetry := 0, width := 1, length := 2, dist := 1, fui := 1, tgrad_x := 0,
    meanPedvar_Image := 1 }

/-- A row of `telconfig` for an array of two telescopes. -/
def sampleTelescope (TelID_hyperArray TelType : Nat) : Ctelconfig ℚ :=
  { NTel := 2, TelID_hyperArray := TelID_hyperArray, TelType := TelType, TelX := 0, TelY := 0,
    TelZ := 0, FOV := 8 }

/-- An environment with one event file, `run1.root`, listed in `files.list`: two telescopes
with the types `type1` and `type2` and the hyper-array identifiers 1 and 2, one event in which
both telescopes have an image of size 10, and a telescope list `array.list` that names the
identifier 1 only. -/
def arrayEnv (type1 type2 : Nat) : Env ℚ :=
  { textFiles := fun path =>
      if path = "files.list" then some ["run1.root"]
      else if path = "array.list" then some ["1"]
      else none
    telconfig := fun _ => [sampleTelescope 1 type1, sampleTelescope 2 type2]
    showerpars := fun _ => [sampleEvent]
    tpars := fun _ _ _ => sampleImage
    rootFiles := fun _ => none
    creatable := fun _ => true
    atof := fun _ => 1 / 2
    ROOT6 := true }

/-- The telescope ordinals of the rows of each training tree of a map. -/
def telescopesOf {α : Type} (fMap : TreeMap α) : List (Nat × List Nat) :=
  fMap.map (fun kt => (kt.1, kt.2.entries.map (fun r => r.tel)))

/-- The outcome with `f` applied to the value returned. -/
def Outcome.map {α β : Type} (f : α → β) : Outcome α → Outcome β
  | .ret a => .ret (f a)
  | .exit status => .exit status
  | .fault => .fault

/-- Whether an effect is a call of `AddTarget`. -/
def Effect.isTarget {α : Type} : Effect α → Bool
  | .addTarget _ _ => true
  | _ => false

/-- The expression of a call of `AddVariable`. -/
def Effect.variable? {α : Type} : Effect α → Option String
  | .addVariable expression => some expression
  | _ => none

/-- Whether an effect hands a target, a dataset or a method to the Model Trainer or runs it:
the calls of `trainTMVA` from `AddTarget` on. -/
def Effect.isTraining {α : Type} : Effect α → Bool
  | .addTarget _ _ => true
  | .addRegressionTree _ => true
  | .prepareTrainingAndTestTree _ _ => true
  | .bookMethod _ _ => true
  | .trainAllMethods => true
  | .testAllMethods => true
  | .evaluateAllMethods => true
  | .deleteFactory => true
  | _ => false

/-- Whether an effect is dataset work of `main`: the assembly or the reload of the training
trees, or the writing of a training tree. -/
def Effect.isDatasetWork {α : Type} : Effect α → Bool
  | .assembleDataset _ => true
  | .reloadDataset _ => true
  | .writeTree _ _ => true
  | _ => false

/-- An environment whose directory `data` holds the dataset file `Foo_1.root` with a training
tree of 300 rows for the telescope type 1. -/
def reloadEnv : Env ℚ :=
  { textFiles := fun _ => none
    telconfig := fun _ => []
    showerpars := fun _ => []
    tpars := fun _ _ _ => default
    rootFiles := fun path => if path = "data/Foo_1.root" then some [sampleTree 300] else none
    creatable := fun _ => true
    atof := fun _ => 1 / 2
    ROOT6 := true }

/-- A command line with the target selector `Foo` and the directory `data` of training
trees. -/
def reloadArgs : List String :=
  ["trainTMVAforAngularReconstruction", "files.list", "out", "0.5", "0", "1", "Foo",
    "NTrees=200", "", "data"]

/-- Whether an effect is the printing of the usage text. -/
def Effect.isUsage {α : Type} : Effect α → Bool
  | .printUsage => true
  | _ => false
/-- The image with every value sent through `g`. -/
def Ctpars.map {α β : Type} (g : α → β) (tp : Ctpars α) : Ctpars β :=
  { cen_x := g tp.cen_x, cen_y := g tp.cen_y, sinphi := g tp.sinphi, cosphi := g tp.cosphi,
    size := g tp.size, ntubes := tp.ntubes, loss := g tp.loss, asymmetry := g tp.asymmetry,
    width := g tp.width, length := g tp.length, dist := g tp.dist, fui := g tp.fui,
    tgrad_x := g tp.tgrad_x, meanPedvar_Image := g tp.meanPedvar_Image }

/-- The event with every value sent through `g`. -/
def Cshowerpars.map {α β : Type} (g : α → β) (sp : Cshowerpars α) : Cshowerpars β :=
  { runNumber := sp.runNumber, eventNumber := sp.eventNumber, MCe0 := g sp.MCe0,
    MCxoff := g sp.MCxoff, MCyoff := g sp.MCyoff, MCxcore := g sp.MCxcore,
    MCycore := g sp.MCycore, MCze := g sp.MCze, MCaz := g sp.MCaz, LTrig := sp.LTrig,
    NImages := sp.NImages, Xoff := fun k => g (sp.Xoff k), Yoff := fun k => g (sp.Yoff k),
    Xcore := fun k => g (sp.Xcore k), Ycore := fun k => g (sp.Ycore k),
    TelElevation := fun k => g (sp.TelElevation k), TelAzimuth := fun k => g (sp.TelAzimuth k) }

/-- The environment `env` with the ROOT file `name` holding the trees `trees`. -/
def withRootFile {α : Type} (env : Env α) (name : String) (trees : List (TTree α)) : Env α :=
  { env with rootFiles := fun path => if path = name then some trees else env.rootFiles path }

/-- The file and the tree of a call of `Write()`. -/
def Effect.written? {α : Type} : Effect α → Option (String × TTree α)
  | .writeTree file tree => some (file, tree)
  | _ => none

/-- The training tree of telescope type 1 that the assembly fills in the environment
`arrayEnv 1 1` when no telescope list is given: one row for each of the two telescopes. -/
def assembledTree : TTree ℚ :=
  ((newTrainingTree 1).Fill
    (trainingRecord sampleOps 0 [0, 0] [0, 0] [0, 0] sampleEvent sampleImage 0)).Fill
    (trainingRecord sampleOps 0 [0, 0] [0, 0] [0, 0] sampleEvent sampleImage 1)

/-- A command line for the assembly of the training trees of all telescope types (type 0),
with the default target `BDTDisp` and the output directory `out`. -/
def assembleArgs : List String :=
  ["trainTMVAforAngularReconstruction", "files.list", "out", "0.5", "0", "0"]

/-- An environment whose directory `data` holds the dataset file `BDTDisp_1.root`, in which
there is a training tree for the telescope type 2 and none for the type 1. -/
def missingTreeEnv : Env ℚ :=
  { textFiles := fun _ => none
    telconfig := fun _ => []
    showerpars := fun _ => []
    tpars := fun _ _ _ => default
    rootFiles := fun path =>
      if path = "data/BDTDisp_1.root" then
        some [{ name := "dispTree_2", title := "", entries := [] }]
      else none
    creatable := fun _ => true
    atof := fun _ => 1 / 2
    ROOT6 := true }

/-! ## The reading of a cut string -/

/-- A token of a cut string. -/
inductive CutToken where
  /-- A column name. -/
  | name (s : String)
  /-- A decimal number: the digits without the point, and the number of digits after it. -/
  | number (digits decimals : Nat)
  /-- The operator `&&`. -/
  | and
  /-- The operator `<`. -/
  | less
  /-- The operator `>`. -/
  | greater
  /-- The operator `*`. -/
  | times
  deriving DecidableEq, Repr

/-- The digits of a number before the decimal point, accumulated onto `acc`, then the rest. -/
def cutDigits : List Char → Nat → Nat × List Char
  | [], acc => (acc, [])
  | c :: cs, acc => if c.isDigit then cutDigits cs (10 * acc + (c.toNat - 48)) else (acc, c :: cs)

/-- The digits of a number after the decimal point: the digits accumulated onto `acc` and
their count; `none` for a character that is no digit. -/
def cutDecimals : List Char → Nat → Nat → Option (Nat × Nat)
  | [], acc, k => some (acc, k)
  | c :: cs, acc, k =>
    if c.isDigit then cutDecimals cs (10 * acc + (c.toNat - 48)) (k + 1) else none

/-- The token of a word: a number when it starts with a digit, a column name otherwise. -/
def cutWord (word : List Char) : Option CutToken :=
  match word with
  | [] => none
  | c :: cs =>
    if c.isDigit then
      match cutDigits (c :: cs) 0 with
      | (n, []) => some (.number n 0)
      | (n, '.' :: rest) => (cutDecimals rest n 0).map (fun p => .number p.1 p.2)
      | _ => none
    else some (.name (String.mk (c :: cs)))

/-- The state of the lexer: the tokens read (last first), the characters of the word being
read (last first), and whether a single `&` was read. -/
structure CutLexer where
  /-- The tokens read, last first. -/
  tokens : List CutToken
  /-- The characters of the word being read, last first. -/
  word : List Char
  /-- Whether a single `&` was read. -/
  ampersand : Bool

/-- The tokens read once the word being read is closed. -/
def CutLexer.flush (st : CutLexer) : Option (List CutToken) :=
  if st.word = [] then some st.tokens
  else (cutWord st.word.reverse).map (fun t => t :: st.tokens)

/-- One character read by the lexer. -/
def CutLexer.step (state : Option CutLexer) (c : Char) : Option CutLexer :=
  match state with
  | none => none
  | some st =>
    if c = '&' then
      if st.ampersand then some { tokens := .and :: st.tokens, word := [], ampersand := false }
      else (st.flush).map (fun ts => { tokens := ts, word := [], ampersand := true })
    else if st.ampersand then none
    else if c = '<' then
      (st.flush).map (fun ts => { tokens := .less :: ts, word := [], ampersand := false })
    else if c = '>' then
      (st.flush).map (fun ts => { tokens := .greater :: ts, word := [], ampersand := false })
    else if c = '*' then
      (st.flush).map (fun ts => { tokens := .times :: ts, word := [], ampersand := false })
    else if c.isAlphanum ∨ c = '_' ∨ c = '.' then
      some { st with word := c :: st.word }
    else none

/-- The tokens of a cut string. -/
def cutTokens (cut : String) : Option (List CutToken) :=
  match cut.toList.foldl CutLexer.step (some { tokens := [], word := [], ampersand := false }) with
  | none => none
  | some st => if st.ampersand then none else (st.flush).map List.reverse

/-- A factor of a product: a column or a number. -/
inductive CutAtom where
  /-- The value of a column. -/
  | column (name : String)
  /-- A decimal number: the digits without the point, and the number of digits after it. -/
  | number (digits decimals : Nat)
  deriving DecidableEq, Repr

/-- A comparison of two products. -/
structure CutClause where
  /-- The factors of the left side. -/
  left : List CutAtom
  /-- Whether the operator is `>` (otherwise `<`). -/
  greater : Bool
  /-- The factors of the right side. -/
  right : List CutAtom
  deriving DecidableEq, Repr

/-- The factors of a product `atom * atom * ...`. -/
def cutProduct : List CutToken → Option (List CutAtom)
  | [.name s] => some [.column s]
  | [.number n k] => some [.number n k]
  | .name s :: .times :: rest => (cutProduct rest).map (fun as => .column s :: as)
  | .number n k :: .times :: rest => (cutProduct rest).map (fun as => .number n k :: as)
  | _ => none

/-- The tokens before the first comparison operator, the operator (`true` for `>`), and the
tokens after it. -/
def cutSplitComparison : List CutToken → Option (List CutToken × Bool × List CutToken)
  | [] => none
  | .less :: rest => some ([], false, rest)
  | .greater :: rest => some ([], true, rest)
  | t :: rest => (cutSplitComparison rest).map (fun p => (t :: p.1, p.2.1, p.2.2))

/-- The comparison that a run of tokens without `&&` stands for: `*` binds tighter than `<`
and `>`. -/
def cutClause (tokens : List CutToken) : Option CutClause :=
  match cutSplitComparison tokens with
  | none => none
  | some (l, greater, r) =>
    match cutProduct l, cutProduct r with
    | some left, some right => some { left := left, greater := greater, right := right }
    | _, _ => none

/-- The runs of tokens between the operators `&&`: the run being read is `current` (last token
first). -/
def cutSplitAnd : List CutToken → List CutToken → List (List CutToken)
  | [], current => [current.reverse]
  | .and :: rest, current => current.reverse :: cutSplitAnd rest []
  | t :: rest, current => cutSplitAnd rest (t :: current)

/-- The comparisons of a list of runs of tokens. -/
def cutClauses : List (List CutToken) → Option (List CutClause)
  | [] => some []
  | run :: runs =>
    match cutClause run, cutClauses runs with
    | some clause, some clauses => some (clause :: clauses)
    | _, _ => none

/-- The conjunction of comparisons that a cut string stands for, with the precedence of C:
`*` before `<` and `>`, these before `&&`. -/
def parseCut (cut : String) : Option (List CutClause) :=
  match cutTokens cut with
  | none => none
  | some tokens => cutClauses (cutSplitAnd tokens [])

section CutValue

variable {α : Type} [LinearOrderedField α]

/-- The column of a training row with a given branch name (the branches booked by
`writeTrainingFile`). -/
def TrainingRecord.column (r : TrainingRecord α) (name : String) : Option α :=
  if name = "runNumber" then some (r.runNumber : α)
  else if name = "eventNumber" then some (r.eventNumber : α)
  else if name = "tel" then some (r.tel : α)
  else if name = "cen_x" then some r.cen_x
  else if name = "cen_y" then some r.cen_y
  else if name = "sinphi" then some r.sinphi
  else if name = "cosphi" then some r.cosphi
  else if name = "size" then some r.size
  else if name = "ntubes" then some r.ntubes
  else if name = "loss" then some r.loss
  else if name = "asym" then some r.asym
  else if name = "width" then some r.width
  else if name = "length" then some r.length
  else if name = "wol" then some r.wol
  else if name = "dist" then some r.dist
  else if name = "fui" then some r.fui
  else if name = "tgrad_x" then some r.tgrad_x
  else if name = "meanPedvar_Image" then some r.meanPedvar_Image
  else if name = "MCe0" then some r.MCe0
  else if name = "MCxoff" then some r.MCxoff
  else if name = "MCyoff" then some r.MCyoff
  else if name = "MCxcore" then some r.MCxcore
  else if name = "MCycore" then some r.MCycore
  else if name = "MCrcore" then some r.MCrcore
  else if name = "Xcore" then some r.Xcore
  else if name = "Ycore" then some r.Ycore
  else if name = "Rcore" then some r.Rcore
  else if name = "Xoff" then some r.Xoff
  else if name = "Yoff" then some r.Yoff
  else if name = "LTrig" then some r.LTrig
  else if name = "NImages" then some r.NImages
  else if name = "EHeight" then some r.EHeight
  else if name = "MCaz" then some r.MCaz
  else if name = "MCze" then some r.MCze
  else if name = "Ze" then some r.Ze
  else if name = "Az" then some r.Az
  else if name = "disp" then some r.disp
  else if name = "dispError" then some r.dispError
  else if name = "cross" then some r.cross
  else if name = "dispPhi" then some r.dispPhi
  else if name = "dispEnergy" then some r.dispEnergy
  else if name = "dispCore" then some r.dispCore
  else none

/-- The value of a factor for a row, `none` for a column the row does not have. -/
def CutAtom.value (r : TrainingRecord α) : CutAtom → Option α
  | .column name => r.column name
  | .number digits decimals => some ((digits : α) / 10 ^ decimals)

/-- The value of a product of factors for a row. -/
def cutProductValue (r : TrainingRecord α) : List CutAtom → Option α
  | [] => some 1
  | a :: as =>
    match a.value r, cutProductValue r as with
    | some x, some y => some (x * y)
    | _, _ => none

/-- Whether a comparison holds for a row. -/
def CutClause.holds (r : TrainingRecord α) (clause : CutClause) : Option Bool :=
  match cutProductValue r clause.left, cutProductValue r clause.right with
  | some x, some y => some (if clause.greater then decide (x > y) else decide (x < y))
  | _, _ => none

/-- Modelled from the spec: the Model Trainer evaluates the quality cut, a string, as a
predicate over the columns of a record and lets the records take part for which it holds (the
formula evaluator of ROOT, which is not part of this repository, reads the string as a C
expression). A string that is no conjunction of comparisons of products, or that names a
column the record does not have, accepts no record. -/
def cutAccepts (cut : String) (r : TrainingRecord α) : Bool :=
  match parseCut cut with
  | none => false
  | some clauses => clauses.all (fun clause => clause.holds r == some true)

end CutValue

/-- A training row over the rationals with `size` 2, `ntubes` 5, `width` 1, `length` 2,
`loss` 1/10 and the time gradient `tgrad_x`; every other column is the default. -/
def sampleRow (tgrad_x : ℚ) : TrainingRecord ℚ :=
  { (default : TrainingRecord ℚ) with
    size := 2, ntubes := 5, width := 1, length := 2, loss := 1 / 10, tgrad_x := tgrad_x }

/-! ## The rows the assembly routes to a tree -/

section Routing

variable {α : Type} [LinearOrderedField α]

end Routing

theorem markTelescopes_length (T : Nat) (ids : List Nat) (i : Nat) (m : List Bool) :
    (markTelescopes T ids i m).length = m.length := by
  induction ids generalizing i m with
  | nil => rfl
  | cons id ids ih =>
    simp only [markTelescopes]
    rw [ih]
    split_ifs <;> simp

theorem markTelescopes_true (T : Nat) (ids : List Nat) (i : Nat) (m : List Bool) (j : Nat) :
    (markTelescopes T ids i m)[j]? = some true ↔
      m[j]? = some true ∨ (j < m.length ∧ i ≤ j ∧ ids[j - i]? = some T) := by
  induction ids generalizing i m with
  | nil => simp [markTelescopes]
  | cons id ids ih =>
    simp only [markTelescopes]
    rw [ih]
    by_cases hT : T = id
    · subst hT
      by_cases hi : i < m.length
      · simp only [if_true, hi, List.length_set]
        rcases Nat.lt_trichotomy j i with hji | hji | hji
        · have h1 : ¬ i ≤ j := by omega
          have h2 : ¬ i + 1 ≤ j := by omega
          have h3 : i ≠ j := by omega
          simp [h1, h2, List.getElem?_set_ne h3]
        · subst hji
          have h2 : ¬ j + 1 ≤ j := by omega
          simp [h2, hi, List.getElem?_set_self]
        · have h3 : i ≠ j := by omega
          have h4 : j - i = (j - (i + 1)) + 1 := by omega
          have h5 : i ≤ j := by omega
          have h6 : i + 1 ≤ j := by omega
          rw [List.getElem?_set_ne h3, h4, List.getElem?_cons_succ]
          simp [h5, h6]
      · simp only [if_true, hi, if_false]
        constructor
        · rintro (h | ⟨h1, h2, h3⟩)
          · exact Or.inl h
          · exact absurd h1 (by omega)
        · rintro (h | ⟨h1, h2, h3⟩)
          · exact Or.inl h
          · exact absurd h1 (by omega)
    · simp only [hT, if_false]
      rcases Nat.lt_or_ge j (i + 1) with hji | hji
      · have h2 : ¬ i + 1 ≤ j := by omega
        by_cases h1 : i ≤ j
        · have : j = i := by omega
          subst this
          have : T ≠ id := hT
          simp [h2, Ne.symm this]
        · simp [h1, h2]
      · have h4 : j - i = (j - (i + 1)) + 1 := by omega
        have h5 : i ≤ j := by omega
        rw [h4, List.getElem?_cons_succ]
        simp [h5, hji]



theorem readArrayLine_length (ids : List Nat) (m : List Bool) (l : String) :
    (readArrayLine ids m l).length = m.length := by
  unfold readArrayLine
  split_ifs
  · exact markTelescopes_length _ _ _ _
  · rfl

theorem foldl_readArrayLine_length (ids : List Nat) (lines : List String) (m : List Bool) :
    (lines.foldl (readArrayLine ids) m).length = m.length := by
  induction lines generalizing m with
  | nil => rfl
  | cons l lines ih => rw [List.foldl_cons, ih, readArrayLine_length]

theorem foldl_readArrayLine_true (ids : List Nat) (lines : List String) (m : List Bool)
    (j : Nat) :
    (lines.foldl (readArrayLine ids) m)[j]? = some true ↔
      m[j]? = some true ∨
        (j < m.length ∧ ∃ l ∈ lines, l.length > 0 ∧ ids[j]? = some (toUnsigned (atoi l))) := by
  induction lines generalizing m with
  | nil => simp
  | cons l lines ih =>
    rw [List.foldl_cons, ih, readArrayLine_length]
    unfold readArrayLine
    by_cases hl : l.length > 0
    · simp only [hl, if_true, markTelescopes_true, Nat.zero_le, true_and, Nat.sub_zero,
        List.mem_cons, exists_eq_or_imp]
      tauto
    · simp only [hl, if_false, List.mem_cons, exists_eq_or_imp, false_and, false_or]

theorem mem_inclusionList (fs : TextFiles) (iArrayList : String) (lines : List String)
    (hn : iArrayList.length > 0) (hf : fs iArrayList = some lines) (id : Nat) :
    id ∈ inclusionList fs iArrayList ↔
      ∃ l ∈ lines, l.length > 0 ∧ id = toUnsigned (atoi l) := by
  simp only [inclusionList, hn, if_true, hf, List.mem_map, List.mem_filter, decide_eq_true_eq]
  constructor
  · rintro ⟨l, ⟨h1, h2⟩, h3⟩
    exact ⟨l, h1, h2, h3.symm⟩
  · rintro ⟨l, h1, h2, h3⟩
    exact ⟨l, ⟨h1, h2⟩, h3.symm⟩

/-- C1 (as amended). Whenever no telescope list is named or the named list can be opened,
`readArrayList` returns a mask of length `i_ntel`, and entry `i` of it is true iff no list is
named, or telescope `i` has a hyper-array identifier and the list holds it. -/
theorem readArrayList_mask (fs : TextFiles) (i_ntel : Nat) (iArrayList : String)
    (iHyperArrayID : List Nat)
    (hopen : iArrayList.length = 0 ∨ (fs iArrayList).isSome = true) :
    ∃ mask, readArrayList fs i_ntel iArrayList iHyperArrayID = .ret mask ∧
      mask.length = i_ntel ∧
      ∀ i, i < i_ntel →
        (mask[i]? = some true ↔
          (iArrayList.length = 0 ∨
            ∃ id, iHyperArrayID[i]? = some id ∧ id ∈ inclusionList fs iArrayList)) := by
  by_cases hn : iArrayList.length > 0
  · have hf : (fs iArrayList).isSome = true := by
      rcases hopen with h | h
      · omega
      · exact h
    obtain ⟨lines, hlines⟩ := Option.isSome_iff_exists.mp hf
    refine ⟨lines.foldl (readArrayLine iHyperArrayID) (List.replicate i_ntel false), ?_, ?_, ?_⟩
    · simp [readArrayList, hn, hlines]
    · simp [foldl_readArrayLine_length]
    · intro i hi
      have h0 : ¬ iArrayList.length = 0 := by omega
      rw [foldl_readArrayLine_true]
      simp only [List.length_replicate, hi, true_and, h0, false_or]
      have hrep : ¬ (List.replicate i_ntel false)[i]? = some true := by
        simp [List.getElem?_replicate, hi]
      simp only [hrep, false_or]
      constructor
      · rintro ⟨l, h1, h2, h3⟩
        exact ⟨_, h3, (mem_inclusionList fs iArrayList lines hn hlines _).mpr ⟨l, h1, h2, rfl⟩⟩
      · rintro ⟨id, h1, h2⟩
        obtain ⟨l, h3, h4, h5⟩ := (mem_inclusionList fs iArrayList lines hn hlines _).mp h2
        exact ⟨l, h3, h4, by rw [h1, h5]⟩
  · have h0 : iArrayList.length = 0 := by omega
    refine ⟨List.replicate i_ntel true, ?_, ?_, ?_⟩
    · simp [readArrayList, h0]
    · simp
    · intro i hi
      simp [h0, List.getElem?_replicate, hi]

/-- C1 (as amended), at the list `sampleListFiles` and three telescopes with the identifiers
12, 5 and 7: the mask is true, false, true. -/
theorem readArrayList_mask_witness :
    ∃ mask, readArrayList sampleListFiles 3 "array.list" [12, 5, 7] = .ret mask ∧
      mask.length = 3 ∧
      ∀ i, i < 3 →
        (mask[i]? = some true ↔
          ("array.list".length = 0 ∨
            ∃ id, ([12, 5, 7] : List Nat)[i]? = some id ∧ id ∈ inclusionList sampleListFiles "array.list")) :=
  readArrayList_mask sampleListFiles 3 "array.list" [12, 5, 7] (Or.inr (by decide))

/-- C1 (as stated) fails for a telescope list that is named and has no line: the list is
empty, and the one telescope is switched off. -/
theorem readArrayList_empty_list_counterexample :
    ¬ (∀ mask, readArrayList emptyListFiles 1 "array.list" [7] = .ret mask →
        ∀ (i id : Nat), ([7] : List Nat)[i]? = some id →
          (mask[i]? = some true ↔
            (id ∈ inclusionList emptyListFiles "array.list" ∨
              inclusionList emptyListFiles "array.list" = []))) := by
  intro h
  have h1 := h [false] (by decide) 0 7 (by decide)
  have h2 : inclusionList emptyListFiles "array.list" = [] := by decide
  rw [h2] at h1
  simp at h1

/-! ## `trainTMVA`: the split -/

theorem sampleTree_GetEntries (n : Nat) : (sampleTree n).GetEntries = n := by
  simp only [sampleTree, TTree.GetEntries, List.length_replicate]

section FeatureProperties

variable {α : Type} [LinearOrderedField α]

theorem dispErrorOf_eq_min (ops : MathOps α) (x1 y1 x2 y2 MCxoff MCyoff : α) :
    dispErrorOf ops x1 y1 x2 y2 MCxoff MCyoff =
      min (distance ops x1 y1 MCxoff (-MCyoff)) (distance ops x2 y2 MCxoff (-MCyoff)) := by
  unfold dispErrorOf distance
  simp only [sub_neg_eq_add]
  split_ifs with h
  · exact (min_eq_left h.le).symm
  · exact (min_eq_right (not_lt.mp h)).symm

/-- C3. The value `dispError` of `writeTrainingFile` is the smaller of the distances of the
two candidate points `( cen_x - disp * cosphi, cen_y - disp * sinphi )` and
`( cen_x + disp * cosphi, cen_y + disp * sinphi )` from `( MCxoff, -MCyoff )`, and it does not
change when the two candidates are exchanged. -/
theorem dispError_smaller_distance (ops : MathOps α)
    (cen_x cen_y sinphi cosphi MCxoff MCyoff x1 y1 x2 y2 : α) :
    dispError ops cen_x cen_y sinphi cosphi MCxoff MCyoff =
        min
          (distance ops (cen_x - disp ops cen_x cen_y MCxoff MCyoff * cosphi)
            (cen_y - disp ops cen_x cen_y MCxoff MCyoff * sinphi) MCxoff (-MCyoff))
          (distance ops (cen_x + disp ops cen_x cen_y MCxoff MCyoff * cosphi)
            (cen_y + disp ops cen_x cen_y MCxoff MCyoff * sinphi) MCxoff (-MCyoff)) ∧
      dispErrorOf ops x1 y1 x2 y2 MCxoff MCyoff = dispErrorOf ops x2 y2 x1 y1 MCxoff MCyoff ∧
      dispError ops cen_x cen_y (-sinphi) (-cosphi) MCxoff MCyoff =
        dispError ops cen_x cen_y sinphi cosphi MCxoff MCyoff := by
  refine ⟨?_, ?_, ?_⟩
  · unfold dispError
    exact dispErrorOf_eq_min ops _ _ _ _ _ _
  · rw [dispErrorOf_eq_min, dispErrorOf_eq_min, min_comm]
  · unfold dispError
    simp only [mul_neg, sub_neg_eq_add]
    rw [dispErrorOf_eq_min, dispErrorOf_eq_min, min_comm]
    simp only [sub_eq_add_neg]

/-- C4. The branch `wol` of a training row is `width / length` for a length above 0 and 0
for every other length, and the division is not evaluated for a divisor that is 0 or
negative: the value does not depend on what a division yields there. -/
theorem wol_guarded (ops : MathOps α) (iRecID : Nat) (fTelX fTelY fTelZ : List α)
    (sp : Cshowerpars α) (tp : Ctpars α) (i : Nat) :
    (0 < tp.length →
      (trainingRecord ops iRecID fTelX fTelY fTelZ sp tp i).wol = tp.width / tp.length) ∧
    (tp.length ≤ 0 → (trainingRecord ops iRecID fTelX fTelY fTelZ sp tp i).wol = 0) ∧
    (trainingRecord ops iRecID fTelX fTelY fTelZ sp tp i).wol
      = wolWith (fun a b => a / b) tp.width tp.length ∧
    ∀ div1 div2 : α → α → α, (∀ a b, 0 < b → div1 a b = div2 a b) →
      wolWith div1 tp.width tp.length = wolWith div2 tp.width tp.length := by
  refine ⟨?_, ?_, rfl, ?_⟩
  · intro h
    simp [trainingRecord, wol, wolWith, h]
  · intro h
    simp [trainingRecord, wol, wolWith, not_lt.mpr h]
  · intro div1 div2 h
    unfold wolWith
    split_ifs with hl
    · exact h _ _ hl
    · rfl

end FeatureProperties

/-! ## `writeTrainingFile`: the size cut -/

section AssemblyProperties

variable {α : Type} [LinearOrderedField α]

end AssemblyProperties

/-! ## `writeTrainingFile`: sample runs -/

theorem trainingRecord_tel {α : Type} [LinearOrderedField α] (ops : MathOps α) (iRecID : Nat)
    (fTelX fTelY fTelZ : List α) (sp : Cshowerpars α) (tp : Ctpars α) (i : Nat) :
    (trainingRecord ops iRecID fTelX fTelY fTelZ sp tp i).tel = (i + 1) % 2 ^ 32 := rfl

/-- Entry `j` of `i_tpars`: a reader iff the type of the telescope is the requested one or
every type is requested. -/
theorem openReaders_getElem? {α : Type} (tpars : Nat → Nat → Ctpars α) (iTelType : Nat)
    (fTelType : List Nat) (i j : Nat) :
    (openReaders tpars iTelType fTelType i)[j]? =
      (fTelType[j]?).map
        (fun t => if iTelType = 0 ∨ iTelType = t then some (tpars (i + j + 1)) else none) := by
  induction fTelType generalizing i j with
  | nil => simp [openReaders]
  | cons t ts ih =>
    cases j with
    | zero => simp [openReaders]
    | succ j =>
      simp only [openReaders, List.getElem?_cons_succ, ih]
      have : i + 1 + j + 1 = i + (j + 1) + 1 := by omega
      rw [this]

/-- C6, at the failing input. Two telescopes of type 1 with the hyper-array identifiers 1 and
2, a telescope list that names the identifier 1 only, all telescope types requested, one event
in which both telescopes have an image of size 10: the mask is true, false, and the training
tree of type 1 gets a row of telescope 1 and a row of the switched-off telescope 2. -/
theorem writeTrainingFile_fills_masked_telescope :
    readArrayList (arrayEnv 1 1).textFiles 2 "array.list" [1, 2] = .ret [true, false] ∧
      (writeTrainingFile sampleOps (arrayEnv 1 1) [] "files.list" 0 0 "array.list").map
        (fun r => (r.1, telescopesOf r.2)) = .ret (true, [(1, [1, 2])]) := by
  have hmask : readArrayList (arrayEnv 1 1).textFiles 2 "array.list" [1, 2]
      = .ret [true, false] := by decide
  refine ⟨hmask, ?_⟩
  have hlen : "run1.root".length = 9 := by decide
  simp [writeTrainingFile, fillInputFile_fromList, arrayEnv, telEntry, sampleTelescope, hlen]
    at hmask ⊢
  rw [hmask]
  norm_num [List.range, List.range.loop, bookTrees, bookTree, telEntry, mapFind, mapInsert,
    openReaders, eventLoop, telescopeLoop, telescopeBody, sampleImage, mapFill, TTree.Fill,
    newTrainingTree, Outcome.map, telescopesOf, trainingRecord_tel, hlen]

/-- C7, at the failing input. Two telescopes of the types 1 and 2, the telescope type 1
requested, no telescope list, one event: telescope 2 gets the null pointer for a reader, and
the loop over the telescopes calls `GetEntry` through it. -/
theorem writeTrainingFile_null_reader_fault :
    (openReaders ((arrayEnv 1 2).tpars ["run1.root"]) 1 [1, 2] 0).map Option.isSome
        = [true, false] ∧
      writeTrainingFile sampleOps (arrayEnv 1 2) [] "files.list" 1 0 "" = .fault := by
  refine ⟨by simp [openReaders], ?_⟩
  have hmask : readArrayList (arrayEnv 1 2).textFiles 2 "" [1, 2]
      = .ret [true, true] := by decide
  have hlen : "run1.root".length = 9 := by decide
  simp [writeTrainingFile, fillInputFile_fromList, arrayEnv, telEntry, sampleTelescope, hlen]
    at hmask ⊢
  rw [hmask]
  norm_num [List.range, List.range.loop, bookTrees, bookTree, telEntry, mapFind, mapInsert,
    openReaders, eventLoop, telescopeLoop, telescopeBody, sampleImage, mapFill, TTree.Fill,
    newTrainingTree, Outcome.map, telescopesOf, trainingRecord_tel, hlen]

/-! ## `trainTMVA`: schema and target -/

/-- What `trainTMVA` does once the tree exists, the split check passes and the output file of
the model can be created. -/
theorem trainTMVA_reached {α : Type} (env : Env α) (iOutputDir : String) (f : ℚ)
    (iTelType : Nat) (tree : TTree α) (iTargetBDT iTMVAOptions iQualityCut : String)
    (htrain : ¬ ntrainOf (tree.GetEntries % 2 ^ 32) f ≤ 100)
    (htest : ¬ ntestOf (tree.GetEntries % 2 ^ 32) (ntrainOf (tree.GetEntries % 2 ^ 32) f) ≤ 100)
    (hfile : env.creatable
      (iOutputDir ++ "/" ++ iTargetBDT ++ "_" ++ toString iTelType ++ ".tmva.root") = true) :
    trainTMVA env iOutputDir f iTelType (some tree) iTargetBDT iTMVAOptions iQualityCut =
      match addTargetOf α iTargetBDT with
      | none =>
        ⟨[.createFile (iOutputDir ++ "/" ++ iTargetBDT ++ "_" ++ toString iTelType ++ ".tmva.root"),
            .mkdir iOutputDir,
            .newFactory iTargetBDT
              (if env.ROOT6 then
                "V:!DrawProgressBar:!Color:!Silent:AnalysisType=Regression:VerboseLevel=Debug:Correlations=True"
              else "V:!DrawProgressBar:!Color:!Silent")]
            ++ addVariables α iTelType ++ addSpectators α, .exit EXIT_FAILURE⟩
      | some target =>
        ⟨[.createFile (iOutputDir ++ "/" ++ iTargetBDT ++ "_" ++ toString iTelType ++ ".tmva.root"),
            .mkdir iOutputDir,
            .newFactory iTargetBDT
              (if env.ROOT6 then
                "V:!DrawProgressBar:!Color:!Silent:AnalysisType=Regression:VerboseLevel=Debug:Correlations=True"
              else "V:!DrawProgressBar:!Color:!Silent")]
            ++ addVariables α iTelType ++ addSpectators α
            ++ [target, .addRegressionTree tree,
              .prepareTrainingAndTestTree iQualityCut
                (trainAndTestConditions env.ROOT6
                  (damp (ntrainOf (tree.GetEntries % 2 ^ 32) f))
                  (damp (ntestOf (tree.GetEntries % 2 ^ 32)
                    (ntrainOf (tree.GetEntries % 2 ^ 32) f)))),
              .bookMethod ("BDT_" ++ toString iTelType) iTMVAOptions,
              .trainAllMethods, .testAllMethods, .evaluateAllMethods, .deleteFactory],
          .ret true⟩ := by
  simp only [trainTMVA, htrain, htest, if_false, hfile, Bool.true_eq_false]

theorem filter_isTarget_addVariables {α : Type} (iTelType : Nat) :
    (addVariables α iTelType).filter Effect.isTarget = [] := by
  unfold addVariables
  split_ifs <;> rfl

theorem filter_isTarget_addSpectators {α : Type} :
    (addSpectators α).filter Effect.isTarget = [] := rfl

theorem addTargetOf_isTarget {α : Type} (iTargetBDT : String) (target : Effect α)
    (h : addTargetOf α iTargetBDT = some target) : target.isTarget = true := by
  unfold addTargetOf at h
  split_ifs at h <;> (cases h; rfl)

/-- C8. When `trainTMVA` reaches the target selection (the tree exists, the split check passes,
the output file of the model can be created), exactly one target is registered for each of the
selectors `BDTDisp` (`disp`, no range), `BDTDispError` (`dispError`, range 0 to 10),
`BDTDispEnergy` (`dispEnergy`, no range) and `BDTDispCore` (`dispCore`, range 0 to 1e5), and the
run goes on to the training; for every other selector no target is registered and the run
ends with `exit( EXIT_FAILURE )`. -/
theorem trainTMVA_target_selection {α : Type} (env : Env α) (iOutputDir : String) (f : ℚ)
    (iTelType : Nat) (tree : TTree α) (iTargetBDT iTMVAOptions iQualityCut : String)
    (htrain : ¬ ntrainOf (tree.GetEntries % 2 ^ 32) f ≤ 100)
    (htest : ¬ ntestOf (tree.GetEntries % 2 ^ 32) (ntrainOf (tree.GetEntries % 2 ^ 32) f) ≤ 100)
    (hfile : env.creatable
      (iOutputDir ++ "/" ++ iTargetBDT ++ "_" ++ toString iTelType ++ ".tmva.root") = true) :
    (iTargetBDT = "BDTDisp" →
      (trainTMVA env iOutputDir f iTelType (some tree) iTargetBDT iTMVAOptions
          iQualityCut).trace.filter Effect.isTarget = [.addTarget "disp" none] ∧
        (trainTMVA env iOutputDir f iTelType (some tree) iTargetBDT iTMVAOptions
          iQualityCut).outcome = .ret true) ∧
    (iTargetBDT = "BDTDispError" →
      (trainTMVA env iOutputDir f iTelType (some tree) iTargetBDT iTMVAOptions
          iQualityCut).trace.filter Effect.isTarget
          = [.addTarget "dispError" (some ("dispError", 0, 10))] ∧
        (trainTMVA env iOutputDir f iTelType (some tree) iTargetBDT iTMVAOptions
          iQualityCut).outcome = .ret true) ∧
    (iTargetBDT = "BDTDispEnergy" →
      (trainTMVA env iOutputDir f iTelType (some tree) iTargetBDT iTMVAOptions
          iQualityCut).trace.filter Effect.isTarget = [.addTarget "dispEnergy" none] ∧
        (trainTMVA env iOutputDir f iTelType (some tree) iTargetBDT iTMVAOptions
          iQualityCut).outcome = .ret true) ∧
    (iTargetBDT = "BDTDispCore" →
      (trainTMVA env iOutputDir f iTelType (some tree) iTargetBDT iTMVAOptions
          iQualityCut).trace.filter Effect.isTarget
          = [.addTarget "dispCore" (some ("m", 0, 100000))] ∧
        (trainTMVA env iOutputDir f iTelType (some tree) iTargetBDT iTMVAOptions
          iQualityCut).outcome = .ret true) ∧
    (iTargetBDT ≠ "BDTDisp" → iTargetBDT ≠ "BDTDispError" → iTargetBDT ≠ "BDTDispEnergy" →
      iTargetBDT ≠ "BDTDispCore" →
      (trainTMVA env iOutputDir f iTelType (some tree) iTargetBDT iTMVAOptions
          iQualityCut).trace.filter Effect.isTarget = [] ∧
        (trainTMVA env iOutputDir f iTelType (some tree) iTargetBDT iTMVAOptions
          iQualityCut).outcome = .exit EXIT_FAILURE) := by
  rw [trainTMVA_reached env iOutputDir f iTelType tree iTargetBDT iTMVAOptions iQualityCut
    htrain htest hfile]
  have hvar := filter_isTarget_addVariables (α := α) iTelType
  have hspec := filter_isTarget_addSpectators (α := α)
  refine ⟨?_, ?_, ?_, ?_, ?_⟩
  · intro h
    have ht : addTargetOf α iTargetBDT = some (.addTarget "disp" none) := by
      subst h; simp [addTargetOf]
    rw [ht]
    simp [List.filter_cons, Effect.isTarget, hvar, hspec]
  · intro h
    have ht : addTargetOf α iTargetBDT = some (.addTarget "dispError" (some ("dispError", 0, 10))) := by
      subst h; simp [addTargetOf]
    rw [ht]
    simp [List.filter_cons, Effect.isTarget, hvar, hspec]
  · intro h
    have ht : addTargetOf α iTargetBDT = some (.addTarget "dispEnergy" none) := by
      subst h; simp [addTargetOf]
    rw [ht]
    simp [List.filter_cons, Effect.isTarget, hvar, hspec]
  · intro h
    have ht : addTargetOf α iTargetBDT = some (.addTarget "dispCore" (some ("m", 0, 100000))) := by
      subst h; simp [addTargetOf]
    rw [ht]
    simp [List.filter_cons, Effect.isTarget, hvar, hspec]
  · intro h1 h2 h3 h4
    have ht : addTargetOf α iTargetBDT = none := by
      simp [addTargetOf, h1, h2, h3, h4]
    rw [ht]
    simp [List.filter_cons, Effect.isTarget, hvar, hspec]

theorem sample_split_passes :
    ¬ ntrainOf ((sampleTree 300).GetEntries % 2 ^ 32) (1 / 2) ≤ 100 ∧
      ¬ ntestOf ((sampleTree 300).GetEntries % 2 ^ 32)
        (ntrainOf ((sampleTree 300).GetEntries % 2 ^ 32) (1 / 2)) ≤ 100 := by
  rw [sampleTree_GetEntries]
  have h : ntrainOf (300 % 2 ^ 32) (1 / 2) = 150 := by
    norm_num [ntrainOf, truncToUnsigned, toUnsigned]
    rfl
  rw [h]
  constructor <;> norm_num [ntestOf]

/-- C8, at a tree of 300 rows, the train fraction 1/2 and the selector `BDTDispError`: the one
target registered is `dispError` with the range 0 to 10. -/
theorem trainTMVA_target_selection_witness :
    (trainTMVA sampleEnv "out" (1 / 2) 1 (some (sampleTree 300)) "BDTDispError" "" ""
        ).trace.filter Effect.isTarget = [.addTarget "dispError" (some ("dispError", 0, 10))] ∧
      (trainTMVA sampleEnv "out" (1 / 2) 1 (some (sampleTree 300)) "BDTDispError" "" ""
        ).outcome = .ret true :=
  (trainTMVA_target_selection sampleEnv "out" (1 / 2) 1 (sampleTree 300) "BDTDispError" "" ""
    sample_split_passes.1 sample_split_passes.2 rfl).2.1 rfl

/-- C10. When `trainTMVA` reaches the definition of the variables (the tree exists, the split
check passes, the output file of the model can be created), the input variables it registers
are, in this order, `width`, `length`, `wol`, `size`, `asym`, `loss`, `dist`, `fui` for the
telescope type 201511619, and `width`, `length`, `wol`, `size`, `tgrad_x*tgrad_x`, `asym`,
`loss`, `dist`, `fui` for every other telescope type. -/
theorem trainTMVA_input_schema {α : Type} (env : Env α) (iOutputDir : String) (f : ℚ)
    (iTelType : Nat) (tree : TTree α) (iTargetBDT iTMVAOptions iQualityCut : String)
    (htrain : ¬ ntrainOf (tree.GetEntries % 2 ^ 32) f ≤ 100)
    (htest : ¬ ntestOf (tree.GetEntries % 2 ^ 32) (ntrainOf (tree.GetEntries % 2 ^ 32) f) ≤ 100)
    (hfile : env.creatable
      (iOutputDir ++ "/" ++ iTargetBDT ++ "_" ++ toString iTelType ++ ".tmva.root") = true) :
    (iTelType = 201511619 →
      (trainTMVA env iOutputDir f iTelType (some tree) iTargetBDT iTMVAOptions
          iQualityCut).trace.filterMap Effect.variable?
        = ["width", "length", "wol", "size", "asym", "loss", "dist", "fui"]) ∧
    (iTelType ≠ 201511619 →
      (trainTMVA env iOutputDir f iTelType (some tree) iTargetBDT iTMVAOptions
          iQualityCut).trace.filterMap Effect.variable?
        = ["width", "length", "wol", "size", "tgrad_x*tgrad_x", "asym", "loss", "dist",
            "fui"]) := by
  rw [trainTMVA_reached env iOutputDir f iTelType tree iTargetBDT iTMVAOptions iQualityCut
    htrain htest hfile]
  constructor
  · intro h
    cases ht : addTargetOf α iTargetBDT with
    | none => simp [addVariables, addSpectators, Effect.variable?, h]
    | some target =>
      have h1 := addTargetOf_isTarget iTargetBDT target ht
      cases target <;> simp [Effect.isTarget] at h1
      simp [addVariables, addSpectators, Effect.variable?, h]
  · intro h
    cases ht : addTargetOf α iTargetBDT with
    | none => simp [addVariables, addSpectators, Effect.variable?, h]
    | some target =>
      have h1 := addTargetOf_isTarget iTargetBDT target ht
      cases target <;> simp [Effect.isTarget] at h1
      simp [addVariables, addSpectators, Effect.variable?, h]

/-- C10, at the telescope type 201511619, a tree of 300 rows and the train fraction 1/2: the
variables registered are the eight without the time gradient. -/
theorem trainTMVA_input_schema_witness :
    (trainTMVA sampleEnv "out" (1 / 2) 201511619 (some (sampleTree 300)) "BDTDisp" "" ""
        ).trace.filterMap Effect.variable?
      = ["width", "length", "wol", "size", "asym", "loss", "dist", "fui"] :=
  (trainTMVA_input_schema sampleEnv "out" (1 / 2) 201511619 (sampleTree 300) "BDTDisp" "" ""
    sample_split_passes.1 sample_split_passes.2 rfl).1 rfl

/-! ## `main`: an unrecognised target selector -/

theorem schema_not_training {α : Type} (iTelType : Nat) :
    ∀ e ∈ addVariables α iTelType ++ addSpectators α, e.isTraining = false := by
  have h : (addVariables α iTelType ++ addSpectators α).all (fun e => !e.isTraining) = true := by
    unfold addVariables addSpectators
    split_ifs <;> rfl
  intro e he
  have h1 := List.all_eq_true.mp h e he
  simpa using h1

theorem trainTMVA_unknown_target {α : Type} (env : Env α) (iOutputDir : String) (f : ℚ)
    (iTelType : Nat) (iDataTree : Option (TTree α)) (iTargetBDT iTMVAOptions iQualityCut : String)
    (hsel : addTargetOf α iTargetBDT = none) :
    (∀ e ∈ (trainTMVA env iOutputDir f iTelType iDataTree iTargetBDT iTMVAOptions
        iQualityCut).trace, e.isTraining = false) ∧
      ((∃ jobName options, Effect.newFactory jobName options ∈
          (trainTMVA env iOutputDir f iTelType iDataTree iTargetBDT iTMVAOptions
            iQualityCut).trace) →
        (trainTMVA env iOutputDir f iTelType iDataTree iTargetBDT iTMVAOptions
          iQualityCut).outcome = .exit EXIT_FAILURE) := by
  cases iDataTree with
  | none => simp [trainTMVA]
  | some tree =>
    simp only [trainTMVA, hsel]
    by_cases c1 : ntrainOf (tree.GetEntries % 2 ^ 32) f ≤ 100
    · rw [if_pos c1]
      simp
    · by_cases c2 : ntestOf (tree.GetEntries % 2 ^ 32)
          (ntrainOf (tree.GetEntries % 2 ^ 32) f) ≤ 100
      · rw [if_neg c1, if_pos c2]
        simp
      · by_cases c3 : env.creatable
            (iOutputDir ++ "/" ++ iTargetBDT ++ "_" ++ toString iTelType ++ ".tmva.root") = false
        · rw [if_neg c1, if_neg c2, if_pos c3]
          simp [Effect.isTraining]
        · rw [if_neg c1, if_neg c2, if_neg c3]
          refine ⟨?_, fun _ => rfl⟩
          intro e he
          dsimp only at he
          rw [List.append_assoc] at he
          rcases List.mem_append.mp he with h | h
          · simp only [List.mem_cons, List.not_mem_nil, or_false] at h
            rcases h with rfl | rfl | rfl <;> rfl
          · exact schema_not_training iTelType e h

theorem trainAll_unknown_target {α : Type} (env : Env α) (fOutputDir : String) (f : ℚ)
    (iTargetBDT iTMVAOptions iQualityCut : String) (hsel : addTargetOf α iTargetBDT = none)
    (fMap : TreeMap α) :
    (∀ e ∈ (trainAll env fOutputDir f iTargetBDT iTMVAOptions iQualityCut fMap).trace,
        e.isTraining = false) ∧
      ((∃ jobName options, Effect.newFactory jobName options ∈
          (trainAll env fOutputDir f iTargetBDT iTMVAOptions iQualityCut fMap).trace) →
        (trainAll env fOutputDir f iTargetBDT iTMVAOptions iQualityCut fMap).outcome
          = .exit EXIT_FAILURE) := by
  induction fMap with
  | nil => simp [trainAll]
  | cons kt rest ih =>
    obtain ⟨k, t⟩ := kt
    obtain ⟨h1, h2⟩ := trainTMVA_unknown_target env fOutputDir f k (some t) iTargetBDT
      iTMVAOptions iQualityCut hsel
    obtain ⟨ih1, ih2⟩ := ih
    simp only [trainAll]
    cases ho : (trainTMVA env fOutputDir f k (some t) iTargetBDT iTMVAOptions
        iQualityCut).outcome with
    | ret b =>
      rw [ho] at h2
      dsimp only
      simp only [List.mem_append]
      refine ⟨?_, ?_⟩
      · rintro e (he | he)
        · exact h1 e he
        · exact ih1 e he
      · rintro ⟨j, o, hj | hj⟩
        · exact absurd (h2 ⟨j, o, hj⟩) (by simp)
        · exact ih2 ⟨j, o, hj⟩
    | exit status =>
      rw [ho] at h2
      dsimp only
      refine ⟨h1, fun hex => ?_⟩
      have h3 := h2 hex
      cases h3
      rfl
    | fault =>
      rw [ho] at h2
      dsimp only
      refine ⟨h1, fun hex => ?_⟩
      have h3 := h2 hex
      cases h3

theorem writeAndTrain_unknown_target {α : Type} (env : Env α) (iFileName fOutputDir : String)
    (f : ℚ) (iTargetBDT iTMVAOptions iQualityCut : String)
    (hsel : addTargetOf α iTargetBDT = none) (fMap : TreeMap α) :
    (∀ e ∈ (writeAndTrain env iFileName fOutputDir f iTargetBDT iTMVAOptions iQualityCut
        fMap).trace, e.isTraining = false) ∧
      ((∃ jobName options, Effect.newFactory jobName options ∈
          (writeAndTrain env iFileName fOutputDir f iTargetBDT iTMVAOptions iQualityCut
            fMap).trace) →
        (writeAndTrain env iFileName fOutputDir f iTargetBDT iTMVAOptions iQualityCut
          fMap).outcome = .exit EXIT_FAILURE) := by
  obtain ⟨h1, h2⟩ := trainAll_unknown_target env fOutputDir f iTargetBDT iTMVAOptions
    iQualityCut hsel fMap
  simp only [writeAndTrain]
  cases ho : (trainAll env fOutputDir f iTargetBDT iTMVAOptions iQualityCut fMap).outcome with
  | ret b =>
    rw [ho] at h2
    dsimp only
    refine ⟨?_, ?_⟩
    · intro e he
      simp only [List.mem_append, List.mem_map, List.mem_singleton] at he
      rcases he with (⟨kt, _, rfl⟩ | he) | rfl
      · rfl
      · exact h1 e he
      · rfl
    · rintro ⟨j, o, hj⟩
      simp only [List.mem_append, List.mem_map, List.mem_singleton] at hj
      rcases hj with (⟨kt, _, hkt⟩ | hj) | hj
      · cases hkt
      · exact absurd (h2 ⟨j, o, hj⟩) (by simp)
      · cases hj
  | exit status =>
    rw [ho] at h2
    dsimp only
    refine ⟨?_, ?_⟩
    · intro e he
      simp only [List.mem_append, List.mem_map] at he
      rcases he with ⟨kt, _, rfl⟩ | he
      · rfl
      · exact h1 e he
    · rintro ⟨j, o, hj⟩
      simp only [List.mem_append, List.mem_map] at hj
      rcases hj with ⟨kt, _, hkt⟩ | hj
      · cases hkt
      · have h3 := h2 ⟨j, o, hj⟩
        cases h3
        rfl
  | fault =>
    rw [ho] at h2
    dsimp only
    refine ⟨?_, ?_⟩
    · intro e he
      simp only [List.mem_append, List.mem_map] at he
      rcases he with ⟨kt, _, rfl⟩ | he
      · rfl
      · exact h1 e he
    · rintro ⟨j, o, hj⟩
      simp only [List.mem_append, List.mem_map] at hj
      rcases hj with ⟨kt, _, hkt⟩ | hj
      · cases hkt
      · have h3 := h2 ⟨j, o, hj⟩
        cases h3

theorem mainAfterArguments_unknown_target {α : Type} [LinearOrderedField α] (ops : MathOps α)
    (env : Env α) (fInputFile fOutputDir : String) (f : ℚ) (iRecID iTelType : Nat)
    (iTargetBDT iTMVAOptions iLayoutFile iDataDirectory iQualityCut : String)
    (hsel : addTargetOf α iTargetBDT = none) :
    (∀ e ∈ (mainAfterArguments ops env fInputFile fOutputDir f iRecID iTelType iTargetBDT
        iTMVAOptions iLayoutFile iDataDirectory iQualityCut).trace, e.isTraining = false) ∧
      ((∃ jobName options, Effect.newFactory jobName options ∈
          (mainAfterArguments ops env fInputFile fOutputDir f iRecID iTelType iTargetBDT
            iTMVAOptions iLayoutFile iDataDirectory iQualityCut).trace) →
        (mainAfterArguments ops env fInputFile fOutputDir f iRecID iTelType iTargetBDT
            iTMVAOptions iLayoutFile iDataDirectory iQualityCut).outcome = .exit EXIT_FAILURE ∧
          ∃ e ∈ (mainAfterArguments ops env fInputFile fOutputDir f iRecID iTelType iTargetBDT
            iTMVAOptions iLayoutFile iDataDirectory iQualityCut).trace,
            e.isDatasetWork = true) := by
  unfold mainAfterArguments
  dsimp only
  generalize (fOutputDir ++ "/" ++ iTargetBDT
    ++ (if iTelType ≠ 0 then "_" ++ toString iTelType else "") ++ ".root") = iFileName
  have hw := fun fMap => writeAndTrain_unknown_target env iFileName fOutputDir f iTargetBDT
    iTMVAOptions iQualityCut hsel fMap
  have hrun : ∀ (first : Effect α) (fMap : TreeMap α), first.isDatasetWork = true →
      first.isTraining = false → (∀ j o, first ≠ Effect.newFactory j o) →
      (∀ e ∈ [Effect.createFile iFileName, first] ++ (writeAndTrain env iFileName fOutputDir f
          iTargetBDT iTMVAOptions iQualityCut fMap).trace, e.isTraining = false) ∧
        ((∃ jobName options, Effect.newFactory jobName options ∈
            [Effect.createFile iFileName, first] ++ (writeAndTrain env iFileName fOutputDir f
              iTargetBDT iTMVAOptions iQualityCut fMap).trace) →
          (writeAndTrain env iFileName fOutputDir f iTargetBDT iTMVAOptions iQualityCut
              fMap).outcome = .exit EXIT_FAILURE ∧
            ∃ e ∈ [Effect.createFile iFileName, first] ++ (writeAndTrain env iFileName
              fOutputDir f iTargetBDT iTMVAOptions iQualityCut fMap).trace,
              e.isDatasetWork = true) := by
    intro first fMap hd ht hn
    obtain ⟨h1, h2⟩ := hw fMap
    refine ⟨?_, ?_⟩
    · intro e he
      rcases List.mem_append.mp he with h | h
      · simp only [List.mem_cons, List.not_mem_nil, or_false] at h
        rcases h with rfl | rfl
        · rfl
        · exact ht
      · exact h1 e h
    · rintro ⟨j, o, hj⟩
      rcases List.mem_append.mp hj with h | h
      · simp only [List.mem_cons, List.not_mem_nil, or_false] at h
        rcases h with h | h
        · cases h
        · exact absurd h.symm (hn j o)
      · exact ⟨h2 ⟨j, o, h⟩, first, List.mem_append_left _ (List.mem_cons_of_mem _
          (List.mem_singleton.mpr rfl)), hd⟩
  by_cases hf : f ≤ 0 ∨ f ≥ 1
  · rw [if_pos hf]
    simp
  · rw [if_neg hf]
    by_cases hc : env.creatable iFileName = false
    · rw [if_pos hc]
      simp [Effect.isTraining]
    · rw [if_neg hc]
      by_cases hd : iDataDirectory.length = 0
      · rw [if_pos hd]
        cases writeTrainingFile ops env [] fInputFile iTelType iRecID iLayoutFile with
        | exit status => simp [Effect.isTraining]
        | fault => simp [Effect.isTraining]
        | ret p =>
          obtain ⟨b, fMap⟩ := p
          cases b with
          | false => simp [Effect.isTraining]
          | true => exact hrun _ fMap rfl rfl (fun _ _ h => by cases h)
      · rw [if_neg hd]
        cases readTrainingFile env iTargetBDT iTelType iDataDirectory with
        | mk b fMap =>
          cases b with
          | false => simp [Effect.isTraining]
          | true => exact hrun _ fMap rfl rfl (fun _ _ h => by cases h)

/-- C9 (as amended). In every run of `main` with a target selector that is none of the
recognised ones, no target, dataset or method is handed to the Model Trainer and nothing is
trained; and whenever the run gets as far as to construct the `TMVA::Factory` in `trainTMVA`,
it ends with `exit( EXIT_FAILURE )`, after the training trees have been assembled or
reloaded. -/
theorem main_unknown_selector {α : Type} [LinearOrderedField α] (ops : MathOps α) (env : Env α)
    (argv : List String) (hargc : 7 ≤ argv.length)
    (hsel : addTargetOf α (argv.getD 6 "") = none) :
    (∀ e ∈ (main ops env argv).trace, e.isTraining = false) ∧
      ((∃ jobName options, Effect.newFactory jobName options ∈ (main ops env argv).trace) →
        (main ops env argv).outcome = .exit EXIT_FAILURE ∧
          ∃ e ∈ (main ops env argv).trace, e.isDatasetWork = true) := by
  have h2 : ¬ (argv.length = 2 ∧ (argv.getD 1 "" = "-v" ∨ argv.getD 1 "" = "--version")) := by
    intro h
    omega
  have h6 : ¬ argv.length < 6 := by omega
  have h7 : argv.length ≥ 7 := hargc
  unfold main
  dsimp only
  rw [if_neg h2, if_neg h6, if_pos h7]
  exact mainAfterArguments_unknown_target ops env _ _ _ _ _ _ _ _ _ _ hsel

theorem reloadArgs_run :
    main sampleOps reloadEnv reloadArgs =
      mainAfterArguments sampleOps reloadEnv "files.list" "out" (1 / 2) 0 1 "Foo" "NTrees=200" ""
        "data" "size>1.&&ntubes>4.&&width>0.&&width<2.&&length>0.&&length<10.&&tgrad_x<100.*100.&&loss<0.20" := by
  have h2 : ¬ (reloadArgs.length = 2 ∧
      (reloadArgs.getD 1 "" = "-v" ∨ reloadArgs.getD 1 "" = "--version")) := by decide
  have h6 : ¬ reloadArgs.length < 6 := by decide
  unfold main
  dsimp only
  rw [if_neg h2, if_neg h6]
  have e1 : toUnsigned (atoi (reloadArgs.getD 4 "")) = 0 := by decide
  have e2 : toULong64 (atoi (reloadArgs.getD 5 "")) = 1 := by decide
  rw [e1, e2]
  rfl

/-- C9, at the command line `reloadArgs` with the selector `Foo`: the hypotheses of
`main_unknown_selector` hold there. -/
theorem main_unknown_selector_witness :
    (∀ e ∈ (main sampleOps reloadEnv reloadArgs).trace, e.isTraining = false) ∧
      ((∃ jobName options,
          Effect.newFactory jobName options ∈ (main sampleOps reloadEnv reloadArgs).trace) →
        (main sampleOps reloadEnv reloadArgs).outcome = .exit EXIT_FAILURE ∧
          ∃ e ∈ (main sampleOps reloadEnv reloadArgs).trace, e.isDatasetWork = true) :=
  main_unknown_selector sampleOps reloadEnv reloadArgs (by decide) rfl

theorem reloadArgs_reload :
    readTrainingFile reloadEnv "Foo" 1 "data" = (true, [(1, sampleTree 300)]) := by
  have hname : "data" ++ "/" ++ "Foo" ++ (if (1 : Nat) ≠ 0 then "_" ++ toString 1 else "")
      ++ ".root" = "data/Foo_1.root" := by decide
  have htree : ((sampleTree 300).name == "dispTree_" ++ toString 1) = true := by decide
  simp only [readTrainingFile, hname, reloadEnv, if_true, List.find?, htree, mapInsert]

/-- The run of `main` for the command line `reloadArgs`: the training tree is reloaded and
written, the split is computed and passes, the model file is created, the variables and the
spectators are registered, and then the selector `Foo` ends the run. -/
theorem reloadArgs_result :
    main sampleOps reloadEnv reloadArgs =
      ⟨[.createFile "out/Foo_1.root", .reloadDataset "data",
          .writeTree "out/Foo_1.root" (sampleTree 300),
          .createFile "out/Foo_1.tmva.root", .mkdir "out",
          .newFactory "Foo"
            "V:!DrawProgressBar:!Color:!Silent:AnalysisType=Regression:VerboseLevel=Debug:Correlations=True"]
          ++ addVariables ℚ 1 ++ addSpectators ℚ,
        .exit EXIT_FAILURE⟩ := by
  have hname : "out" ++ "/" ++ "Foo" ++ (if (1 : Nat) ≠ 0 then "_" ++ toString 1 else "")
      ++ ".root" = "out/Foo_1.root" := by decide
  have hmodel : "out" ++ "/" ++ "Foo" ++ "_" ++ toString 1 ++ ".tmva.root"
      = "out/Foo_1.tmva.root" := by decide
  have hf : ¬ ((1 / 2 : ℚ) ≤ 0 ∨ (1 / 2 : ℚ) ≥ 1) := by norm_num
  have hd : ¬ "data".length = 0 := by decide
  have htrain := trainTMVA_reached reloadEnv "out" (1 / 2) 1 (sampleTree 300) "Foo" "NTrees=200"
    "size>1.&&ntubes>4.&&width>0.&&width<2.&&length>0.&&length<10.&&tgrad_x<100.*100.&&loss<0.20"
    sample_split_passes.1 sample_split_passes.2 rfl
  have hsel : addTargetOf ℚ "Foo" = none := rfl
  rw [hsel, hmodel] at htrain
  rw [reloadArgs_run]
  unfold mainAfterArguments
  dsimp only
  rw [if_neg hf, hname, if_neg (by simp [reloadEnv]), if_neg hd, reloadArgs_reload]
  simp only [writeAndTrain, trainAll, htrain]
  rfl

/-- C9 (as stated) fails for the command line `reloadArgs` with the selector `Foo`: the run
ends with `exit( EXIT_FAILURE )` only after the training tree has been reloaded and written. -/
theorem main_unknown_selector_counterexample :
    ¬ ((main sampleOps reloadEnv reloadArgs).outcome = .exit EXIT_FAILURE ∧
        ∀ e ∈ (main sampleOps reloadEnv reloadArgs).trace, e.isDatasetWork = false) := by
  rw [reloadArgs_result]
  rintro ⟨_, h⟩
  have h1 := h (.reloadDataset "data") (by simp)
  simp [Effect.isDatasetWork] at h1

/-! ## `trainTMVA`: damping and abort ordering -/

theorem trainTMVA_split_violated {α : Type} (env : Env α) (iOutputDir : String) (f : ℚ)
    (iTelType : Nat) (tree : TTree α) (iTargetBDT iTMVAOptions iQualityCut : String)
    (hviol : ntrainOf (tree.GetEntries % 2 ^ 32) f ≤ 100 ∨
      ntestOf (tree.GetEntries % 2 ^ 32) (ntrainOf (tree.GetEntries % 2 ^ 32) f) ≤ 100) :
    trainTMVA env iOutputDir f iTelType (some tree) iTargetBDT iTMVAOptions iQualityCut
      = ⟨[], .exit EXIT_FAILURE⟩ := by
  simp only [trainTMVA]
  by_cases c1 : ntrainOf (tree.GetEntries % 2 ^ 32) f ≤ 100
  · rw [if_pos c1]
  · rw [if_neg c1, if_pos (hviol.resolve_left c1)]

theorem schema_not_usage {α : Type} (iTelType : Nat) :
    ∀ e ∈ addVariables α iTelType ++ addSpectators α, e.isUsage = false := by
  have h : (addVariables α iTelType ++ addSpectators α).all (fun e => !e.isUsage) = true := by
    unfold addVariables addSpectators
    split_ifs <;> rfl
  intro e he
  have h1 := List.all_eq_true.mp h e he
  simpa using h1

theorem trainTMVA_not_usage {α : Type} (env : Env α) (iOutputDir : String) (f : ℚ)
    (iTelType : Nat) (iDataTree : Option (TTree α))
    (iTargetBDT iTMVAOptions iQualityCut : String) :
    ∀ e ∈ (trainTMVA env iOutputDir f iTelType iDataTree iTargetBDT iTMVAOptions
      iQualityCut).trace, e.isUsage = false := by
  cases iDataTree with
  | none => simp [trainTMVA]
  | some tree =>
    simp only [trainTMVA]
    by_cases c1 : ntrainOf (tree.GetEntries % 2 ^ 32) f ≤ 100
    · rw [if_pos c1]
      simp
    · by_cases c2 : ntestOf (tree.GetEntries % 2 ^ 32)
          (ntrainOf (tree.GetEntries % 2 ^ 32) f) ≤ 100
      · rw [if_neg c1, if_pos c2]
        simp
      · by_cases c3 : env.creatable
            (iOutputDir ++ "/" ++ iTargetBDT ++ "_" ++ toString iTelType ++ ".tmva.root") = false
        · rw [if_neg c1, if_neg c2, if_pos c3]
          simp [Effect.isUsage]
        · rw [if_neg c1, if_neg c2, if_neg c3]
          have hsetup : ∀ e ∈ [Effect.createFile
                (iOutputDir ++ "/" ++ iTargetBDT ++ "_" ++ toString iTelType ++ ".tmva.root"),
              Effect.mkdir iOutputDir,
              Effect.newFactory iTargetBDT
                (if env.ROOT6 then
                  "V:!DrawProgressBar:!Color:!Silent:AnalysisType=Regression:VerboseLevel=Debug:Correlations=True"
                else "V:!DrawProgressBar:!Color:!Silent")]
              ++ addVariables α iTelType ++ addSpectators α, e.isUsage = false := by
            intro e he
            rw [List.append_assoc] at he
            rcases List.mem_append.mp he with h | h
            · simp only [List.mem_cons, List.not_mem_nil, or_false] at h
              rcases h with rfl | rfl | rfl <;> rfl
            · exact schema_not_usage iTelType e h
          cases ht : addTargetOf α iTargetBDT with
          | none => exact hsetup
          | some target =>
            have h1 := addTargetOf_isTarget iTargetBDT target ht
            intro e he
            dsimp only at he
            rcases List.mem_append.mp he with h | h
            · exact hsetup e h
            · simp only [List.mem_cons, List.not_mem_nil, or_false] at h
              rcases h with rfl | rfl | rfl | rfl | rfl | rfl | rfl | rfl
              · cases e <;> simp [Effect.isTarget] at h1
                rfl
              all_goals rfl

theorem trainAll_not_usage {α : Type} (env : Env α) (fOutputDir : String) (f : ℚ)
    (iTargetBDT iTMVAOptions iQualityCut : String) (fMap : TreeMap α) :
    ∀ e ∈ (trainAll env fOutputDir f iTargetBDT iTMVAOptions iQualityCut fMap).trace,
      e.isUsage = false := by
  induction fMap with
  | nil => simp [trainAll]
  | cons kt rest ih =>
    obtain ⟨k, t⟩ := kt
    have h1 := trainTMVA_not_usage env fOutputDir f k (some t) iTargetBDT iTMVAOptions
      iQualityCut
    simp only [trainAll]
    cases (trainTMVA env fOutputDir f k (some t) iTargetBDT iTMVAOptions
        iQualityCut).outcome with
    | ret b =>
      dsimp only
      intro e he
      rcases List.mem_append.mp he with h | h
      · exact h1 e h
      · exact ih e h
    | exit status => exact h1
    | fault => exact h1

theorem writeAndTrain_not_usage {α : Type} (env : Env α) (iFileName fOutputDir : String)
    (f : ℚ) (iTargetBDT iTMVAOptions iQualityCut : String) (fMap : TreeMap α) :
    ∀ e ∈ (writeAndTrain env iFileName fOutputDir f iTargetBDT iTMVAOptions iQualityCut
      fMap).trace, e.isUsage = false := by
  have h1 := trainAll_not_usage env fOutputDir f iTargetBDT iTMVAOptions iQualityCut fMap
  have hw : ∀ e ∈ fMap.map (fun kt => (Effect.writeTree iFileName kt.2 : Effect α)),
      e.isUsage = false := by
    intro e he
    obtain ⟨kt, _, rfl⟩ := List.mem_map.mp he
    rfl
  simp only [writeAndTrain]
  cases (trainAll env fOutputDir f iTargetBDT iTMVAOptions iQualityCut fMap).outcome with
  | ret b =>
    dsimp only
    intro e he
    rcases List.mem_append.mp he with h | h
    · rcases List.mem_append.mp h with h | h
      · exact hw e h
      · exact h1 e h
    · simp only [List.mem_singleton] at h
      subst h
      rfl
  | exit status =>
    dsimp only
    intro e he
    rcases List.mem_append.mp he with h | h
    · exact hw e h
    · exact h1 e h
  | fault =>
    dsimp only
    intro e he
    rcases List.mem_append.mp he with h | h
    · exact hw e h
    · exact h1 e h

theorem mainAfterArguments_not_usage {α : Type} [LinearOrderedField α] (ops : MathOps α)
    (env : Env α) (fInputFile fOutputDir : String) (f : ℚ) (iRecID iTelType : Nat)
    (iTargetBDT iTMVAOptions iLayoutFile iDataDirectory iQualityCut : String) :
    ∀ e ∈ (mainAfterArguments ops env fInputFile fOutputDir f iRecID iTelType iTargetBDT
      iTMVAOptions iLayoutFile iDataDirectory iQualityCut).trace, e.isUsage = false := by
  unfold mainAfterArguments
  dsimp only
  generalize (fOutputDir ++ "/" ++ iTargetBDT
    ++ (if iTelType ≠ 0 then "_" ++ toString iTelType else "") ++ ".root") = iFileName
  have hrun : ∀ (first : Effect α) (fMap : TreeMap α), first.isUsage = false →
      ∀ e ∈ [Effect.createFile iFileName, first] ++ (writeAndTrain env iFileName fOutputDir f
        iTargetBDT iTMVAOptions iQualityCut fMap).trace, e.isUsage = false := by
    intro first fMap hfirst e he
    rcases List.mem_append.mp he with h | h
    · simp only [List.mem_cons, List.not_mem_nil, or_false] at h
      rcases h with rfl | rfl
      · rfl
      · exact hfirst
    · exact writeAndTrain_not_usage env iFileName fOutputDir f iTargetBDT iTMVAOptions
        iQualityCut fMap e h
  by_cases hf : f ≤ 0 ∨ f ≥ 1
  · rw [if_pos hf]
    simp
  · rw [if_neg hf]
    by_cases hc : env.creatable iFileName = false
    · rw [if_pos hc]
      simp [Effect.isUsage]
    · rw [if_neg hc]
      by_cases hd : iDataDirectory.length = 0
      · rw [if_pos hd]
        cases writeTrainingFile ops env [] fInputFile iTelType iRecID iLayoutFile with
        | exit status => simp [Effect.isUsage]
        | fault => simp [Effect.isUsage]
        | ret p =>
          obtain ⟨b, fMap⟩ := p
          cases b with
          | false => simp [Effect.isUsage]
          | true => exact hrun _ fMap rfl
      · rw [if_neg hd]
        cases readTrainingFile env iTargetBDT iTelType iDataDirectory with
        | mk b fMap =>
          cases b with
          | false => simp [Effect.isUsage]
          | true => exact hrun _ fMap rfl

/-- C18. With fewer than 5 arguments after the program name, and unless the one argument is
`-v` or `--version`, `main` prints the usage text and ends with `exit( EXIT_SUCCESS )`, and
that is all it does; with 5 or more such arguments it never prints the usage text. -/
theorem main_usage {α : Type} [LinearOrderedField α] (ops : MathOps α) (env : Env α)
    (argv : List String) :
    (argv.length - 1 < 5 →
      ¬ (argv.length = 2 ∧ (argv.getD 1 "" = "-v" ∨ argv.getD 1 "" = "--version")) →
      main ops env argv = ⟨[.printUsage], .exit EXIT_SUCCESS⟩ ∧ EXIT_SUCCESS = 0) ∧
    (5 ≤ argv.length - 1 →
      ∀ e ∈ (main ops env argv).trace, e ≠ Effect.printUsage) := by
  constructor
  · intro h5 hv
    have h6 : argv.length < 6 := by omega
    unfold main
    dsimp only
    rw [if_neg hv, if_pos h6]
    exact ⟨rfl, rfl⟩
  · intro h5
    have h2 : ¬ (argv.length = 2 ∧
        (argv.getD 1 "" = "-v" ∨ argv.getD 1 "" = "--version")) := by
      intro h
      omega
    have h6 : ¬ argv.length < 6 := by omega
    unfold main
    dsimp only
    rw [if_neg h2, if_neg h6]
    intro e he hu
    have h := mainAfterArguments_not_usage ops env _ _ _ _ _ _ _ _ _ _ e he
    rw [hu] at h
    cases h
/-! ## Feature derivation: the bound on `dispError` -/

section DispErrorBound

variable {α : Type} [LinearOrderedField α]

end DispErrorBound

theorem assembled_all_types :
    writeTrainingFile sampleOps (arrayEnv 1 1) [] "files.list" 0 0 ""
      = .ret (true, [(1, assembledTree)]) := by
  have hmask : readArrayList (arrayEnv 1 1).textFiles 2 "" [1, 2]
      = .ret [true, true] := by decide
  have hlen : "run1.root".length = 9 := by decide
  simp [writeTrainingFile, fillInputFile_fromList, arrayEnv, telEntry, sampleTelescope, hlen]
    at hmask ⊢
  rw [hmask]
  norm_num [List.range, List.range.loop, bookTrees, bookTree, telEntry, mapFind, mapInsert,
    openReaders, eventLoop, telescopeLoop, telescopeBody, sampleImage, mapFill, TTree.Fill,
    newTrainingTree, assembledTree, hlen]

theorem assembledTree_GetEntries : assembledTree.GetEntries = 2 := rfl

/-- The run of `main` for the command line `assembleArgs` in the environment `arrayEnv 1 1`:
the tree of telescope type 1 is written to `out/BDTDisp.root`, then the split check of
`trainTMVA` ends the run (the tree has two rows). -/
theorem assembleArgs_result :
    main sampleOps (arrayEnv 1 1) assembleArgs =
      ⟨[.createFile "out/BDTDisp.root", .assembleDataset "files.list",
          .writeTree "out/BDTDisp.root" assembledTree],
        .exit EXIT_FAILURE⟩ := by
  have h2 : ¬ (assembleArgs.length = 2 ∧
      (assembleArgs.getD 1 "" = "-v" ∨ assembleArgs.getD 1 "" = "--version")) := by decide
  have h6 : ¬ assembleArgs.length < 6 := by decide
  have e1 : toUnsigned (atoi (assembleArgs.getD 4 "")) = 0 := by decide
  have e2 : toULong64 (atoi (assembleArgs.getD 5 "")) = 0 := by decide
  have hname : "out" ++ "/" ++ "BDTDisp" ++ (if (0 : Nat) ≠ 0 then "_" ++ toString 0 else "")
      ++ ".root" = "out/BDTDisp.root" := by decide
  have hf : ¬ ((1 / 2 : ℚ) ≤ 0 ∨ (1 / 2 : ℚ) ≥ 1) := by norm_num
  have hd : "".length = 0 := by decide
  have hviol : ntrainOf (assembledTree.GetEntries % 2 ^ 32) (1 / 2) ≤ 100 ∨
      ntestOf (assembledTree.GetEntries % 2 ^ 32)
        (ntrainOf (assembledTree.GetEntries % 2 ^ 32) (1 / 2)) ≤ 100 := by
    left
    rw [assembledTree_GetEntries]
    norm_num [ntrainOf, truncToUnsigned, toUnsigned]
  have htrain := trainTMVA_split_violated (arrayEnv 1 1) "out" (1 / 2) 1 assembledTree "BDTDisp"
    "VarTransform=N:NTrees=200:BoostType=AdaBoost:MaxDepth=8"
    "size>1.&&ntubes>4.&&width>0.&&width<2.&&length>0.&&length<10.&&tgrad_x<100.*100.&&loss<0.20"
    hviol
  unfold main
  dsimp only
  rw [if_neg h2, if_neg h6, e1, e2]
  have hargs : assembleArgs.length = 6 := rfl
  simp only [hargs, ge_iff_le, Nat.reduceLeDiff, if_false]
  have hatof : (arrayEnv 1 1).atof (assembleArgs.getD 3 "") = 1 / 2 := rfl
  have hin : assembleArgs.getD 1 "" = "files.list" := rfl
  have hout : assembleArgs.getD 2 "" = "out" := rfl
  rw [hatof, hin, hout]
  unfold mainAfterArguments
  dsimp only
  rw [if_neg hf, hname, if_neg (by simp [arrayEnv]), if_pos hd, assembled_all_types]
  simp only [writeAndTrain, trainAll, htrain]
  rfl

/-- The function `readTrainingFile` returns `false` exactly when the dataset file cannot be
opened. -/
theorem readTrainingFile_false_iff {α : Type} (env : Env α) (iTargetBDT : String)
    (iTelType : Nat) (iDataDirectory : String) :
    (readTrainingFile env iTargetBDT iTelType iDataDirectory).1 = false ↔
      env.rootFiles (iDataDirectory ++ "/" ++ iTargetBDT
        ++ (if iTelType ≠ 0 then "_" ++ toString iTelType else "") ++ ".root") = none := by
  unfold readTrainingFile
  dsimp only
  cases env.rootFiles (iDataDirectory ++ "/" ++ iTargetBDT
      ++ (if iTelType ≠ 0 then "_" ++ toString iTelType else "") ++ ".root") with
  | none => simp
  | some trees =>
    dsimp only
    cases trees.find? (fun t => t.name == "dispTree_" ++ toString iTelType) <;> simp

/-- C13, at the failing input. The assembly for all telescope types (type 0) in the
environment `arrayEnv 1 1` writes the tree `dispTree_1` with two rows to `out/BDTDisp.root`;
`readTrainingFile` with the same target, the type 0 and the directory `out` opens that file,
looks for `dispTree_0`, and leaves `fMapOfTrainingTree` empty. -/
theorem readTrainingFile_all_types_finds_nothing :
    (main sampleOps (arrayEnv 1 1) assembleArgs).trace.filterMap Effect.written?
        = [("out/BDTDisp.root", assembledTree)] ∧
      assembledTree.name = "dispTree_1" ∧
      assembledTree.GetEntries = 2 ∧
      readTrainingFile (withRootFile (arrayEnv 1 1) "out/BDTDisp.root" [assembledTree])
        "BDTDisp" 0 "out" = (true, []) := by
  refine ⟨?_, by decide, rfl, ?_⟩
  · rw [assembleArgs_result]
    rfl
  · have hname : "out" ++ "/" ++ "BDTDisp" ++ (if (0 : Nat) ≠ 0 then "_" ++ toString 0 else "")
        ++ ".root" = "out/BDTDisp.root" := by decide
    have htree : (assembledTree.name == "dispTree_" ++ toString 0) = false := by decide
    simp only [readTrainingFile, hname, withRootFile, if_true, List.find?, htree]

/-- C14, at the failing input. The dataset file `data/BDTDisp_1.root` can be opened and holds
no tree `dispTree_1`: `readTrainingFile` for the telescope type 1 returns `true` and leaves
`fMapOfTrainingTree` empty. -/
theorem readTrainingFile_missing_tree_returns_true :
    missingTreeEnv.rootFiles "data/BDTDisp_1.root"
        = some [{ name := "dispTree_2", title := "", entries := [] }] ∧
      readTrainingFile missingTreeEnv "BDTDisp" 1 "data" = (true, []) := by
  refine ⟨rfl, ?_⟩
  have hname : "data" ++ "/" ++ "BDTDisp" ++ (if (1 : Nat) ≠ 0 then "_" ++ toString 1 else "")
      ++ ".root" = "data/BDTDisp_1.root" := by decide
  have htree : (("dispTree_2" : String) == "dispTree_" ++ toString 1) = false := by decide
  simp only [readTrainingFile, hname, missingTreeEnv, if_true, List.find?, htree]

/-! ## The default quality cut -/

theorem parseCut_default :
    parseCut
      "size>1.&&ntubes>4.&&width>0.&&width<2.&&length>0.&&length<10.&&tgrad_x<100.*100.&&loss<0.20"
      = some
        [⟨[.column "size"], true, [.number 1 0]⟩,
         ⟨[.column "ntubes"], true, [.number 4 0]⟩,
         ⟨[.column "width"], true, [.number 0 0]⟩,
         ⟨[.column "width"], false, [.number 2 0]⟩,
         ⟨[.column "length"], true, [.number 0 0]⟩,
         ⟨[.column "length"], false, [.number 10 0]⟩,
         ⟨[.column "tgrad_x"], false, [.number 100 0, .number 100 0]⟩,
         ⟨[.column "loss"], false, [.number 20 2]⟩] := by
  decide

section CutProperties

variable {α : Type} [LinearOrderedField α]

theorem column_size (r : TrainingRecord α) : r.column "size" = some r.size := by
  simp [TrainingRecord.column]

theorem column_ntubes (r : TrainingRecord α) : r.column "ntubes" = some r.ntubes := by
  simp [TrainingRecord.column]

theorem column_width (r : TrainingRecord α) : r.column "width" = some r.width := by
  simp [TrainingRecord.column]

theorem column_length (r : TrainingRecord α) : r.column "length" = some r.length := by
  simp [TrainingRecord.column]

theorem column_tgrad_x (r : TrainingRecord α) : r.column "tgrad_x" = some r.tgrad_x := by
  simp [TrainingRecord.column]

theorem column_loss (r : TrainingRecord α) : r.column "loss" = some r.loss := by
  simp [TrainingRecord.column]

/-- The records the default quality cut of `main` accepts: the clause on the time gradient
compares `tgrad_x` itself with `100 * 100`. -/
theorem cutAccepts_default (r : TrainingRecord α) :
    cutAccepts
        "size>1.&&ntubes>4.&&width>0.&&width<2.&&length>0.&&length<10.&&tgrad_x<100.*100.&&loss<0.20"
        r = true ↔
      (r.size > 1 ∧ r.ntubes > 4 ∧ r.width > 0 ∧ r.width < 2 ∧ r.length > 0 ∧ r.length < 10 ∧
        r.tgrad_x < 100 * 100 ∧ r.loss < 20 / 100) := by
  unfold cutAccepts
  rw [parseCut_default]
  simp only [List.all_cons, List.all_nil, CutClause.holds, cutProductValue, CutAtom.value,
    column_size, column_ntubes, column_width, column_length, column_tgrad_x, column_loss,
    Bool.and_true, Bool.and_eq_true, beq_iff_eq, Option.some.injEq, decide_eq_true_eq,
    if_true, Bool.false_eq_true, if_false, pow_zero, div_one, mul_one, Nat.cast_ofNat,
    Nat.cast_one, Nat.cast_zero]
  norm_num

end CutProperties

/-- Without a quality-cut argument (at most 9 arguments after the program name) `main` goes on
with the default quality cut. -/
theorem main_default_cut {α : Type} [LinearOrderedField α] (ops : MathOps α) (env : Env α)
    (argv : List String) (h6 : 6 ≤ argv.length) (h11 : argv.length < 11) :
    main ops env argv =
      mainAfterArguments ops env (argv.getD 1 "") (argv.getD 2 "") (env.atof (argv.getD 3 ""))
        (toUnsigned (atoi (argv.getD 4 ""))) (toULong64 (atoi (argv.getD 5 "")))
        (if argv.length ≥ 7 then argv.getD 6 "" else "BDTDisp")
        (if argv.length ≥ 8 then argv.getD 7 ""
          else "VarTransform=N:NTrees=200:BoostType=AdaBoost:MaxDepth=8")
        (if argv.length ≥ 9 then argv.getD 8 "" else "")
        (if argv.length ≥ 10 then argv.getD 9 "" else "")
        "size>1.&&ntubes>4.&&width>0.&&width<2.&&length>0.&&length<10.&&tgrad_x<100.*100.&&loss<0.20" := by
  have h2 : ¬ (argv.length = 2 ∧ (argv.getD 1 "" = "-v" ∨ argv.getD 1 "" = "--version")) := by
    intro h
    omega
  have h6' : ¬ argv.length < 6 := by omega
  have h11' : ¬ argv.length ≥ 11 := by omega
  unfold main
  dsimp only
  rw [if_neg h2, if_neg h6', if_neg h11']

/-- C15, at the failing input. For the command line `assembleArgs`, which has no quality-cut
argument, `main` goes on with the default cut string; that cut accepts the row `sampleRow 500`
and the row `sampleRow (-20000)`, whose time gradients squared are not below `100 * 100`. -/
theorem default_cut_accepts_large_gradient :
    main sampleOps (arrayEnv 1 1) assembleArgs =
        mainAfterArguments sampleOps (arrayEnv 1 1) "files.list" "out" (1 / 2) 0 0 "BDTDisp"
          "VarTransform=N:NTrees=200:BoostType=AdaBoost:MaxDepth=8" "" ""
          "size>1.&&ntubes>4.&&width>0.&&width<2.&&length>0.&&length<10.&&tgrad_x<100.*100.&&loss<0.20" ∧
      cutAccepts
        "size>1.&&ntubes>4.&&width>0.&&width<2.&&length>0.&&length<10.&&tgrad_x<100.*100.&&loss<0.20"
        (sampleRow 500) = true ∧
      ¬ ((sampleRow 500).tgrad_x * (sampleRow 500).tgrad_x < 100 * 100) ∧
      cutAccepts
        "size>1.&&ntubes>4.&&width>0.&&width<2.&&length>0.&&length<10.&&tgrad_x<100.*100.&&loss<0.20"
        (sampleRow (-20000)) = true ∧
      ¬ ((sampleRow (-20000)).tgrad_x * (sampleRow (-20000)).tgrad_x < 100 * 100) := by
  refine ⟨?_, ?_, ?_, ?_, ?_⟩
  · rw [main_default_cut sampleOps (arrayEnv 1 1) assembleArgs (by decide) (by decide)]
    have e1 : toUnsigned (atoi (assembleArgs.getD 4 "")) = 0 := by decide
    have e2 : toULong64 (atoi (assembleArgs.getD 5 "")) = 0 := by decide
    rw [e1, e2]
    rfl
  · rw [cutAccepts_default]
    norm_num [sampleRow]
  · norm_num [sampleRow]
  · rw [cutAccepts_default]
    norm_num [sampleRow]
  · norm_num [sampleRow]

/-! ## `writeTrainingFile`: the training trees and their rows -/

section RoutingProperties

variable {α : Type} [LinearOrderedField α]

end RoutingProperties

section BookingProperties

variable {α : Type} [LinearOrderedField α]

end BookingProperties

section AssemblyInversion

variable {α : Type} [LinearOrderedField α]

end AssemblyInversion

section TreesAndRows

variable {α : Type} [LinearOrderedField α]

end TreesAndRows

end Eventdisplay
